import Mathlib

/-!
Verification of the portfolio persistence layer (`portfolio/database_persistence.py`,
`portfolio/utils.py`, `app.py`).

The database state is embedded as lists of rows mirroring the schema created by
`DatabasePersistence._setup_schema`; SQL `NULL` is `Option`, `NUMERIC(10,2)` values are
rationals, the `integer` columns are `Int`/`Nat`.  Every gateway method takes the
gateway's `user_id` (an `Option Nat`, `None` in Python) and the current database state,
and returns `Except String result`; the `RuntimeError` raised by `_database_connect`
when `user_id is None` becomes `Except.error userIdError`, raised before the statement
runs, so erroring calls return no new state.
-/

namespace Portfolio

/-- Row of `users.users` (id serial PRIMARY KEY, username, password_hash). -/
structure UserRow where
  id : Nat
  username : String
  password_hash : String
deriving DecidableEq

/-- Row of `accounts` (id serial PRIMARY KEY, account_name, account_type, user_id). -/
structure Account where
  id : Nat
  account_name : String
  account_type : String
  user_id : Nat
deriving DecidableEq

/-- Row of `assets` (id, ticker, name, category, current_price NUMERIC, user_id). -/
structure Asset where
  id : Nat
  ticker : String
  name : String
  category : String
  current_price : Rat
  user_id : Nat
deriving DecidableEq

/-- Row of `holdings` (id, asset_id, account_id, shares integer, user_id). -/
structure Holding where
  id : Nat
  asset_id : Nat
  account_id : Nat
  shares : Int
  user_id : Nat
deriving DecidableEq

/-- The whole database: the four tables plus the serial counters feeding `id` columns. -/
structure DBState where
  users : List UserRow
  accounts : List Account
  assets : List Asset
  holdings : List Holding
  next_user_id : Nat
  next_account_id : Nat
  next_asset_id : Nat
  next_holding_id : Nat
deriving DecidableEq

/-- A row of the derived view `views.base_holdings`; asset/holding columns are nullable
because of the two left joins. -/
structure ViewRow where
  account_name : String
  account_type : String
  ticker : Option String
  name : Option String
  category : Option String
  current_price : Option Rat
  shares : Option Int
  market_value : Option Rat
  percent : Option Rat
  asset_id : Option Nat
  account_id : Nat
  holding_id : Option Nat
  user_id : Nat
deriving DecidableEq

/-- The message of the `RuntimeError` raised by `_database_connect` when
`self.user_id is None` and `require_user` holds. -/
def userIdError : String := "user_id required for database access."

/-- `_database_connect(require_user=True)`: fails before any SQL runs when the gateway
was built without a user id. -/
def requireUser (uid : Option Nat) : Except String Nat :=
  match uid with
  | none => Except.error userIdError
  | some u => Except.ok u

/-- `LEFT JOIN assets ON assets.id = holdings.asset_id` applied to one
(account, holding) pair: null-extended when no asset matches. -/
def assetRows (db : DBState) (a : Account) (h : Holding) :
    List (Account × Option (Holding × Option Asset)) :=
  let ss := db.assets.filter (fun s => s.id == h.asset_id)
  if ss.isEmpty then [(a, some (h, none))]
  else ss.map (fun s => (a, some (h, some s)))

/-- `FROM accounts LEFT JOIN holdings ON accounts.id = holdings.account_id
LEFT JOIN assets ON assets.id = holdings.asset_id`, restricted to one `accounts` row:
an account with no matching holding contributes a single null-extended row, otherwise
one row per matching holding (then joined with assets). -/
def accountRows (db : DBState) (a : Account) :
    List (Account × Option (Holding × Option Asset)) :=
  let hs := db.holdings.filter (fun h => h.account_id == a.id)
  if hs.isEmpty then [(a, none)]
  else hs.flatMap (assetRows db a)

/-- All rows of the `FROM ... LEFT JOIN ... LEFT JOIN ...` clause of the view. -/
def joinRows (db : DBState) : List (Account × Option (Holding × Option Asset)) :=
  db.accounts.flatMap (accountRows db)

/-- `assets.current_price * holdings.shares` (SQL: NULL if either side is NULL). -/
def rowMV : Account × Option (Holding × Option Asset) → Option Rat
  | (_, some (h, some s)) => some (s.current_price * (h.shares : Rat))
  | _ => none

/-- SQL `SUM` over a nullable column: NULLs are ignored, and the sum of no non-null
values is NULL. -/
def sqlSumOpt (l : List (Option Rat)) : Option Rat :=
  let v := l.filterMap id
  if v.isEmpty then none else some v.sum

/-- SQL `SUM` for the integer `shares` column. -/
def sqlSumInt (l : List (Option Int)) : Option Int :=
  let v := l.filterMap id
  if v.isEmpty then none else some v.sum

/-- SQL `MIN` over a non-null column of a group (NULL only on an empty group). -/
def sqlMin : List Rat → Option Rat
  | [] => none
  | x :: xs =>
    match sqlMin xs with
    | none => some x
    | some m => some (min x m)

/-- `SUM(assets.current_price * holdings.shares) OVER ()`: the window total ranges over
the WHOLE view, with no user filter. -/
def totalMV (db : DBState) : Option Rat :=
  sqlSumOpt ((joinRows db).map rowMV)

/-- The `CASE WHEN SUM(...) OVER () > 0 THEN mv / SUM(...) OVER () ELSE 0 END` column:
`NULL > 0` is not true, so a NULL total also takes the ELSE branch; a NULL market value
divided by a positive total stays NULL. -/
def sqlPercent (total mv : Option Rat) : Option Rat :=
  match total with
  | some t => if 0 < t then mv.map (fun m => m / t) else some 0
  | none => some 0

/-- The SELECT list of `views.base_holdings` applied to one joined row. -/
def viewRowOf (total : Option Rat) :
    Account × Option (Holding × Option Asset) → ViewRow
  | (a, none) =>
      { account_name := a.account_name, account_type := a.account_type,
        ticker := none, name := none, category := none, current_price := none,
        shares := none, market_value := none, percent := sqlPercent total none,
        asset_id := none, account_id := a.id, holding_id := none, user_id := a.user_id }
  | (a, some (h, none)) =>
      { account_name := a.account_name, account_type := a.account_type,
        ticker := none, name := none, category := none, current_price := none,
        shares := some h.shares, market_value := none, percent := sqlPercent total none,
        asset_id := none, account_id := a.id, holding_id := some h.id,
        user_id := a.user_id }
  | (a, some (h, some s)) =>
      { account_name := a.account_name, account_type := a.account_type,
        ticker := some s.ticker, name := some s.name, category := some s.category,
        current_price := some s.current_price, shares := some h.shares,
        market_value := some (s.current_price * (h.shares : Rat)),
        percent := sqlPercent total (some (s.current_price * (h.shares : Rat))),
        asset_id := some s.id, account_id := a.id, holding_id := some h.id,
        user_id := a.user_id }

/-- `SELECT * FROM views.base_holdings` (the `_setup_schema` view definition). -/
def baseHoldings (db : DBState) : List ViewRow :=
  (joinRows db).map (viewRowOf (totalMV db))

/-- `_BASE_HOLDINGS_QUERY`: `SELECT * FROM views.base_holdings WHERE user_id = %s`. -/
def userFilteredRows (u : Nat) (db : DBState) : List ViewRow :=
  (baseHoldings db).filter (fun r => r.user_id == u)

/-- `all_holdings`: the base query with the `has_holdings` filter
`AND shares IS NOT NULL`. -/
def allHoldingsList (u : Nat) (db : DBState) : List ViewRow :=
  (userFilteredRows u db).filter (fun r => r.shares.isSome)

/-- `account_holdings`: the base query (no `has_holdings` filter) plus
`AND account_id = %s`. -/
def accountHoldingsList (u : Nat) (account_id : Nat) (db : DBState) : List ViewRow :=
  (userFilteredRows u db).filter (fun r => r.account_id == account_id)

/-- `find_holding`: base query with `has_holdings` filter plus `AND holding_id = %s`,
then `fetchone()`; the SQL comparison `NULL = %s` is never true. -/
def findHoldingRow (u : Nat) (holding_id : Nat) (db : DBState) : Option ViewRow :=
  ((allHoldingsList u db).filter (fun r => r.holding_id == some holding_id)).head?

/-- First-occurrence de-duplication, used to model `GROUP BY` keys and
`COUNT(DISTINCT ...)`. -/
def dedupFirst {α : Type} [BEq α] : List α → List α
  | [] => []
  | k :: ks => k :: (dedupFirst ks).filter (fun x => !(x == k))

/-- Output row of `account_totals()`. -/
structure AccountTotalsRow where
  account_name : String
  account_type : String
  account_id : Nat
  number_holdings : Nat
  total_market_value : Option Rat
  percent : Option Rat
deriving DecidableEq

/-- Output row of `asset_totals()`. -/
structure AssetTotalsRow where
  id : Nat
  ticker : String
  name : String
  category : String
  current_price : Option Rat
  total_shares : Option Int
  accounts_holding : Nat
  total_market_value : Option Rat
  percent : Option Rat
deriving DecidableEq

/-- The key tuple of `GROUP BY account_name, account_type, account_id`. -/
def accountKey (r : ViewRow) : String × String × Nat :=
  (r.account_name, r.account_type, r.account_id)

/-- `account_totals()`: the base query (filtered to the gateway user) grouped by
account name/type/id with `COUNT(ticker)`, `SUM(market_value)`, `SUM(percent)`. -/
def accountTotalsList (u : Nat) (db : DBState) : List AccountTotalsRow :=
  let base := userFilteredRows u db
  let keys := dedupFirst (base.map accountKey)
  keys.map (fun k =>
    let grp := base.filter (fun r => accountKey r == k)
    { account_name := k.1, account_type := k.2.1, account_id := k.2.2,
      number_holdings := (grp.filter (fun r => r.ticker.isSome)).length,
      total_market_value := sqlSumOpt (grp.map (fun r => r.market_value)),
      percent := sqlSumOpt (grp.map (fun r => r.percent)) })

/-- `FROM assets LEFT JOIN base_query ON assets.id = base_query.asset_id` inside
`asset_totals()`: an asset with no matching base row is null-extended. -/
def assetJoin (u : Nat) (db : DBState) : List (Asset × Option ViewRow) :=
  let base := userFilteredRows u db
  db.assets.flatMap (fun s =>
    let ms := base.filter (fun r => r.asset_id == some s.id)
    if ms.isEmpty then [(s, none)]
    else ms.map (fun r => (s, some r)))

/-- The `WHERE assets.user_id = base_query.user_id` clause of `asset_totals()`: on a
null-extended row `base_query.user_id` is NULL, and `x = NULL` is never true, so such
rows are dropped. -/
def assetJoinFiltered (u : Nat) (db : DBState) : List (Asset × ViewRow) :=
  (assetJoin u db).filterMap (fun p =>
    match p.2 with
    | some r => if p.1.user_id == r.user_id then some (p.1, r) else none
    | none => none)

/-- The key tuple of `GROUP BY assets.id, assets.ticker, assets.name, assets.category`. -/
def assetKey (s : Asset) : Nat × String × String × String :=
  (s.id, s.ticker, s.name, s.category)

/-- `asset_totals()`: join, user-equality filter, then grouping with
`MIN(current_price)`, `SUM(shares)`, `COUNT(DISTINCT account_id)`,
`SUM(market_value)`, `SUM(percent)`. -/
def assetTotalsList (u : Nat) (db : DBState) : List AssetTotalsRow :=
  let rows := assetJoinFiltered u db
  let keys := dedupFirst (rows.map (fun p => assetKey p.1))
  keys.map (fun k =>
    let grp := rows.filter (fun p => assetKey p.1 == k)
    { id := k.1, ticker := k.2.1, name := k.2.2.1, category := k.2.2.2,
      current_price := sqlMin (grp.map (fun p => p.1.current_price)),
      total_shares := sqlSumInt (grp.map (fun p => p.2.shares)),
      accounts_holding := (dedupFirst (grp.map (fun p => p.2.account_id))).length,
      total_market_value := sqlSumOpt (grp.map (fun p => p.2.market_value)),
      percent := sqlSumOpt (grp.map (fun p => p.2.percent)) })

/-- Column list of the view, as listed in its SELECT clause. -/
def baseHoldingsColumns : List String :=
  ["account_name", "account_type", "ticker", "name", "category", "current_price",
   "shares", "market_value", "percent", "asset_id", "account_id", "holding_id",
   "user_id"]

/-- Column list produced by `account_totals()`. -/
def accountTotalsColumns : List String :=
  ["account_name", "account_type", "account_id", "number_holdings",
   "total_market_value", "percent"]

/-- Column list produced by `asset_totals()`. -/
def assetTotalsColumns : List String :=
  ["id", "ticker", "name", "category", "current_price", "total_shares",
   "accounts_holding", "total_market_value", "percent"]

/-- `create_user(username, password)` runs with `require_user=False`; the password
hashing is done by werkzeug outside this layer, so the hash is taken as input. -/
def create_user (_uid : Option Nat) (db : DBState) (username password_hash : String) :
    Except String DBState :=
  Except.ok { db with
    users := db.users ++ [⟨db.next_user_id, username, password_hash⟩],
    next_user_id := db.next_user_id + 1 }

/-- `all_users()`: `SELECT username FROM users.users`, `require_user=False`. -/
def all_users (_uid : Option Nat) (db : DBState) : Except String (List String) :=
  Except.ok (db.users.map (fun r => r.username))

/-- `load_user_credentials()`: username to password hash and username to id maps,
`require_user=False`. -/
def load_user_credentials (_uid : Option Nat) (db : DBState) :
    Except String (List (String × String) × List (String × Nat)) :=
  Except.ok (db.users.map (fun r => (r.username, r.password_hash)),
             db.users.map (fun r => (r.username, r.id)))

/-- `get_columns()`: the base query with `LIMIT 0`, executed with
`require_user=False`; only the cursor description (column names) is returned. -/
def get_columns (_uid : Option Nat) (_db : DBState) : Except String (List String) :=
  Except.ok baseHoldingsColumns

/-- `all_holdings()`. -/
def all_holdings (uid : Option Nat) (db : DBState) : Except String (List ViewRow) := do
  let u ← requireUser uid
  Except.ok (allHoldingsList u db)

/-- `all_accounts()`: `SELECT * FROM accounts WHERE user_id = %s`. -/
def all_accounts (uid : Option Nat) (db : DBState) : Except String (List Account) := do
  let u ← requireUser uid
  Except.ok (db.accounts.filter (fun a => a.user_id == u))

/-- `all_assets()`: `SELECT * FROM assets WHERE user_id = %s`. -/
def all_assets (uid : Option Nat) (db : DBState) : Except String (List Asset) := do
  let u ← requireUser uid
  Except.ok (db.assets.filter (fun s => s.user_id == u))

/-- `find_holding(holding_id)`. -/
def find_holding (uid : Option Nat) (db : DBState) (holding_id : Nat) :
    Except String (Option ViewRow) := do
  let u ← requireUser uid
  Except.ok (findHoldingRow u holding_id db)

/-- `find_asset(asset_id)`: `SELECT * FROM assets WHERE id = %s`, `fetchone()`;
the query has no user filter (the connection is still user-scoped, so the
`user_id is None` check applies). -/
def find_asset (uid : Option Nat) (db : DBState) (asset_id : Nat) :
    Except String (Option Asset) := do
  let _ ← requireUser uid
  Except.ok ((db.assets.filter (fun s => s.id == asset_id)).head?)

/-- `add_account(account_name, account_type)`: INSERT tagging the row with the
gateway's user id. -/
def add_account (uid : Option Nat) (db : DBState) (account_name account_type : String) :
    Except String DBState := do
  let u ← requireUser uid
  Except.ok { db with
    accounts := db.accounts ++ [⟨db.next_account_id, account_name, account_type, u⟩],
    next_account_id := db.next_account_id + 1 }

/-- `add_asset(ticker, name, category, current_price)`. -/
def add_asset (uid : Option Nat) (db : DBState)
    (ticker name category : String) (current_price : Rat) : Except String DBState := do
  let u ← requireUser uid
  Except.ok { db with
    assets := db.assets ++ [⟨db.next_asset_id, ticker, name, category, current_price, u⟩],
    next_asset_id := db.next_asset_id + 1 }

/-- `add_holding(account_id, asset_id, shares)`. -/
def add_holding (uid : Option Nat) (db : DBState)
    (account_id asset_id : Nat) (shares : Int) : Except String DBState := do
  let u ← requireUser uid
  Except.ok { db with
    holdings := db.holdings ++ [⟨db.next_holding_id, asset_id, account_id, shares, u⟩],
    next_holding_id := db.next_holding_id + 1 }

/-- `account_holdings(account_id)`. -/
def account_holdings (uid : Option Nat) (db : DBState) (account_id : Nat) :
    Except String (List ViewRow) := do
  let u ← requireUser uid
  Except.ok (accountHoldingsList u account_id db)

/-- `delete_holding(holding_id)`: `DELETE FROM holdings WHERE id = %s`. -/
def delete_holding (uid : Option Nat) (db : DBState) (holding_id : Nat) :
    Except String DBState := do
  let _ ← requireUser uid
  Except.ok { db with holdings := db.holdings.filter (fun h => !(h.id == holding_id)) }

/-- `update_holding(holding_id, shares)`: `UPDATE holdings SET shares = %s WHERE id = %s`. -/
def update_holding (uid : Option Nat) (db : DBState) (holding_id : Nat) (shares : Int) :
    Except String DBState := do
  let _ ← requireUser uid
  Except.ok { db with holdings := db.holdings.map (fun h =>
    if h.id == holding_id then { h with shares := shares } else h) }

/-- `delete_asset(asset_id)`: `DELETE FROM assets WHERE id = %s`; the
`ON DELETE CASCADE` policy on `holdings.asset_id` also removes dependent holdings. -/
def delete_asset (uid : Option Nat) (db : DBState) (asset_id : Nat) :
    Except String DBState := do
  let _ ← requireUser uid
  Except.ok { db with
    assets := db.assets.filter (fun s => !(s.id == asset_id)),
    holdings := db.holdings.filter (fun h => !(h.asset_id == asset_id)) }

/-- `update_asset(asset_id, current_price)`:
`UPDATE assets SET current_price = %s WHERE id = %s`. -/
def update_asset (uid : Option Nat) (db : DBState) (asset_id : Nat)
    (current_price : Rat) : Except String DBState := do
  let _ ← requireUser uid
  Except.ok { db with assets := db.assets.map (fun s =>
    if s.id == asset_id then { s with current_price := current_price } else s) }

/-- `delete_account(account_id)`: `DELETE FROM accounts WHERE id = %s`; the
`ON DELETE CASCADE` policy on `holdings.account_id` also removes dependent holdings. -/
def delete_account (uid : Option Nat) (db : DBState) (account_id : Nat) :
    Except String DBState := do
  let _ ← requireUser uid
  Except.ok { db with
    accounts := db.accounts.filter (fun a => !(a.id == account_id)),
    holdings := db.holdings.filter (fun h => !(h.account_id == account_id)) }

/-- `account_totals()`: returns the rows together with the column names. -/
def account_totals (uid : Option Nat) (db : DBState) :
    Except String (List AccountTotalsRow × List String) := do
  let u ← requireUser uid
  Except.ok (accountTotalsList u db, accountTotalsColumns)

/-- `asset_totals()`: returns the rows together with the column names. -/
def asset_totals (uid : Option Nat) (db : DBState) :
    Except String (List AssetTotalsRow × List String) := do
  let u ← requireUser uid
  Except.ok (assetTotalsList u db, assetTotalsColumns)

/-- Python `str.isalnum()` restricted to the character test used on usernames:
non-empty and every character alphanumeric. -/
def isalnum (s : String) : Bool :=
  !s.data.isEmpty && s.data.all Char.isAlphanum

/-- `verify_username(username)` from `app.py`/`portfolio/utils.py`; the
`g.storage.all_users()` result is taken as the explicit list of existing usernames. -/
def verify_username (username : String) (existing_usernames : List String) : Bool :=
  let length := username.length > 1
  let is_alphanum := isalnum username
  let unique := !(existing_usernames.contains username)
  length && is_alphanum && unique

/-- `verify_password(password)`: length at least 8 and some digit of `0..9` occurs in
the password (a one-character substring test is one-character membership). -/
def verify_password (password : String) : Bool :=
  let numbers := List.range 10
  let length := password.length ≥ 8
  let has_num := numbers.any (fun number => password.data.contains (Nat.digitChar number))
  length && has_num

/-- The decimal digit characters. -/
def decimalDigits : List Char :=
  ['0', '1', '2', '3', '4', '5', '6', '7', '8', '9']

lemma has_num_iff (l : List Char) :
    ((List.range 10).any (fun number => l.contains (Nat.digitChar number)) = true) ↔
      ∃ c ∈ l, c ∈ decimalDigits := by
  have hmap : (List.range 10).map Nat.digitChar = decimalDigits := by decide
  constructor
  · intro h
    obtain ⟨n, hn, hc⟩ := List.any_eq_true.mp h
    refine ⟨Nat.digitChar n, ?_, ?_⟩
    · simpa using hc
    · rw [← hmap]; exact List.mem_map_of_mem _ hn
  · rintro ⟨c, hcl, hcd⟩
    rw [← hmap] at hcd
    obtain ⟨n, hn, rfl⟩ := List.mem_map.mp hcd
    exact List.any_eq_true.mpr ⟨n, hn, by simpa using hcl⟩

/-- C8: `verify_username` accepts exactly the usernames of length greater than one,
made of alphanumeric characters only, and not already among the existing usernames;
in particular it accepts `"ab"` against no existing users and rejects `"a"` (too
short), `"ab!"` (non-alphanumeric), and `"ab"` when `"ab"` already exists. -/
theorem verify_username_correct :
    (∀ (username : String) (existing_usernames : List String),
        verify_username username existing_usernames = true ↔
          1 < username.length ∧ (∀ c ∈ username.data, c.isAlphanum = true) ∧
            username ∉ existing_usernames) ∧
      verify_username "ab" [] = true ∧
      verify_username "a" [] = false ∧
      verify_username "ab!" [] = false ∧
      verify_username "ab" ["ab"] = false := by
  refine ⟨?_, by decide, by decide, by decide, by decide⟩
  intro username existing
  unfold verify_username isalnum
  simp only [Bool.and_eq_true, decide_eq_true_eq, List.all_eq_true, Bool.not_eq_true',
    gt_iff_lt]
  constructor
  · rintro ⟨⟨hlen, _, halnum⟩, huniq⟩
    exact ⟨hlen, halnum, by simpa using huniq⟩
  · rintro ⟨hlen, halnum, huniq⟩
    refine ⟨⟨hlen, ?_, halnum⟩, by simpa using huniq⟩
    have hne : username.data ≠ [] := by
      intro he
      have hl : username.length = username.data.length := rfl
      rw [hl, he] at hlen
      simp at hlen
    simpa [List.isEmpty_iff] using hne

/-- Witness for C8 at concrete inputs. -/
theorem verify_username_correct_witness : verify_username "xy" ["ab"] = true :=
  (verify_username_correct.1 "xy" ["ab"]).mpr (by decide)

/-- C9: `verify_password` accepts exactly the passwords of length at least 8 that
contain a decimal digit character; in particular it accepts `"abcdefg1"` and rejects
`"abcdefgh"` (no digit) and `"ab1"` (too short). -/
theorem verify_password_correct :
    (∀ password : String,
        verify_password password = true ↔
          8 ≤ password.length ∧ ∃ c ∈ password.data, c ∈ decimalDigits) ∧
      verify_password "abcdefg1" = true ∧
      verify_password "abcdefgh" = false ∧
      verify_password "ab1" = false := by
  refine ⟨?_, by decide, by decide, by decide⟩
  intro password
  unfold verify_password
  rw [Bool.and_eq_true, decide_eq_true_eq, has_num_iff]

/-- Witness for C9 at a concrete input. -/
theorem verify_password_correct_witness : verify_password "password1" = true :=
  (verify_password_correct.1 "password1").mpr (by decide)

/-- C10: with a gateway built with `user_id = None`, every user-scoped operation
fails with the `RuntimeError` message before its SQL statement runs (so no state
change is returned), while `create_user`, `all_users`, `load_user_credentials` and
`get_columns` run with `require_user=False` and never raise it. -/
theorem none_user_guard (db : DBState) (hid aid cid : Nat) (sh : Int) (pr : Rat)
    (an at' tk nm cat un ph : String) :
    all_holdings none db = Except.error userIdError ∧
    all_accounts none db = Except.error userIdError ∧
    all_assets none db = Except.error userIdError ∧
    find_holding none db hid = Except.error userIdError ∧
    find_asset none db aid = Except.error userIdError ∧
    add_account none db an at' = Except.error userIdError ∧
    add_asset none db tk nm cat pr = Except.error userIdError ∧
    add_holding none db cid aid sh = Except.error userIdError ∧
    account_holdings none db cid = Except.error userIdError ∧
    update_holding none db hid sh = Except.error userIdError ∧
    update_asset none db aid pr = Except.error userIdError ∧
    delete_holding none db hid = Except.error userIdError ∧
    delete_asset none db aid = Except.error userIdError ∧
    delete_account none db cid = Except.error userIdError ∧
    account_totals none db = Except.error userIdError ∧
    asset_totals none db = Except.error userIdError ∧
    (create_user none db un ph).isOk = true ∧
    (all_users none db).isOk = true ∧
    (load_user_credentials none db).isOk = true ∧
    (get_columns none db).isOk = true := by
  exact ⟨rfl, rfl, rfl, rfl, rfl, rfl, rfl, rfl, rfl, rfl, rfl, rfl, rfl, rfl, rfl,
    rfl, rfl, rfl, rfl, rfl⟩

/-! Unfolding equations for the gateway operations at a bound user. -/

lemma update_holding_ok (u : Nat) (db : DBState) (holding_id : Nat) (shares : Int) :
    update_holding (some u) db holding_id shares = Except.ok { db with
      holdings := db.holdings.map (fun h =>
        if h.id == holding_id then { h with shares := shares } else h) } := rfl

lemma update_asset_ok (u : Nat) (db : DBState) (asset_id : Nat) (current_price : Rat) :
    update_asset (some u) db asset_id current_price = Except.ok { db with
      assets := db.assets.map (fun s =>
        if s.id == asset_id then { s with current_price := current_price } else s) } := rfl

lemma delete_account_ok (u : Nat) (db : DBState) (account_id : Nat) :
    delete_account (some u) db account_id = Except.ok { db with
      accounts := db.accounts.filter (fun a => !(a.id == account_id)),
      holdings := db.holdings.filter (fun h => !(h.account_id == account_id)) } := rfl

lemma delete_asset_ok (u : Nat) (db : DBState) (asset_id : Nat) :
    delete_asset (some u) db asset_id = Except.ok { db with
      assets := db.assets.filter (fun s => !(s.id == asset_id)),
      holdings := db.holdings.filter (fun h => !(h.asset_id == asset_id)) } := rfl

lemma delete_holding_ok (u : Nat) (db : DBState) (holding_id : Nat) :
    delete_holding (some u) db holding_id = Except.ok { db with
      holdings := db.holdings.filter (fun h => !(h.id == holding_id)) } := rfl

lemma all_holdings_ok (u : Nat) (db : DBState) :
    all_holdings (some u) db = Except.ok (allHoldingsList u db) := rfl

lemma account_holdings_ok (u : Nat) (db : DBState) (account_id : Nat) :
    account_holdings (some u) db account_id =
      Except.ok (accountHoldingsList u account_id db) := rfl

lemma find_holding_ok (u : Nat) (db : DBState) (holding_id : Nat) :
    find_holding (some u) db holding_id = Except.ok (findHoldingRow u holding_id db) := rfl

lemma find_asset_ok (u : Nat) (db : DBState) (asset_id : Nat) :
    find_asset (some u) db asset_id =
      Except.ok ((db.assets.filter (fun s => s.id == asset_id)).head?) := rfl

lemma account_totals_ok (u : Nat) (db : DBState) :
    account_totals (some u) db =
      Except.ok (accountTotalsList u db, accountTotalsColumns) := rfl

lemma asset_totals_ok (u : Nat) (db : DBState) :
    asset_totals (some u) db = Except.ok (assetTotalsList u db, assetTotalsColumns) := rfl

/-! Structural lemmas about the embedded view. -/

/-- A list with a member is not empty. -/
lemma isEmpty_false_of_mem {α : Type} {l : List α} {x : α} (hx : x ∈ l) :
    l.isEmpty = false := by
  cases hc : l.isEmpty
  · rfl
  · rw [List.isEmpty_iff.mp hc] at hx; cases hx

/-- Equation: `assetRows` with no matching asset. -/
lemma assetRows_none (db : DBState) (a : Account) (h : Holding)
    (he : (db.assets.filter (fun s => s.id == h.asset_id)).isEmpty = true) :
    assetRows db a h = [(a, some (h, none))] := by
  simp [assetRows, he]

/-- Equation: `assetRows` with at least one matching asset. -/
lemma assetRows_found (db : DBState) (a : Account) (h : Holding)
    (he : (db.assets.filter (fun s => s.id == h.asset_id)).isEmpty = false) :
    assetRows db a h =
      (db.assets.filter (fun s => s.id == h.asset_id)).map
        (fun s => (a, some (h, some s))) := by
  simp [assetRows, he]

/-- Equation: `accountRows` for an account with no matching holding. -/
lemma accountRows_empty (db : DBState) (a : Account)
    (he : (db.holdings.filter (fun h => h.account_id == a.id)).isEmpty = true) :
    accountRows db a = [(a, none)] := by
  simp [accountRows, he]

/-- Equation: `accountRows` for an account with at least one matching holding. -/
lemma accountRows_flat (db : DBState) (a : Account)
    (he : (db.holdings.filter (fun h => h.account_id == a.id)).isEmpty = false) :
    accountRows db a =
      (db.holdings.filter (fun h => h.account_id == a.id)).flatMap (assetRows db a) := by
  simp [accountRows, he]

/-- Every row of `assetRows db a h` carries `a` and `h`, and its asset component,
when present, satisfies the asset join condition. -/
lemma assetRows_shape (db : DBState) (a : Account) (h : Holding)
    (p : Account × Option (Holding × Option Asset)) (hp : p ∈ assetRows db a h) :
    ∃ os, p = (a, some (h, os)) ∧
      ∀ s, os = some s → s ∈ db.assets ∧ s.id = h.asset_id := by
  cases he : (db.assets.filter (fun s => s.id == h.asset_id)).isEmpty
  · rw [assetRows_found db a h he] at hp
    obtain ⟨s, hs, rfl⟩ := List.mem_map.mp hp
    have hs' := List.mem_filter.mp hs
    exact ⟨some s, rfl, fun s' hs'' => by
      cases hs''; exact ⟨hs'.1, by simpa using hs'.2⟩⟩
  · rw [assetRows_none db a h he] at hp
    rw [List.mem_singleton] at hp
    subst hp
    exact ⟨none, rfl, fun s hcon => by cases hcon⟩

/-- Every row produced by `accountRows db a` carries the account `a` itself, and its
holding/asset components, when present, satisfy the two join conditions. -/
lemma accountRows_shape (db : DBState) (a : Account)
    (p : Account × Option (Holding × Option Asset)) (hp : p ∈ accountRows db a) :
    p.1 = a ∧
      (∀ h os, p.2 = some (h, os) → h ∈ db.holdings ∧ h.account_id = a.id) ∧
      (∀ h s, p.2 = some (h, some s) → s ∈ db.assets ∧ s.id = h.asset_id) := by
  cases he : (db.holdings.filter (fun h => h.account_id == a.id)).isEmpty
  · rw [accountRows_flat db a he] at hp
    obtain ⟨h, hh, hp⟩ := List.mem_flatMap.mp hp
    have hh' := List.mem_filter.mp hh
    have hacc : h.account_id = a.id := by simpa using hh'.2
    obtain ⟨os, rfl, hos⟩ := assetRows_shape db a h p hp
    refine ⟨rfl, ?_, ?_⟩
    · intro h' os' hcon
      cases hcon
      exact ⟨hh'.1, hacc⟩
    · intro h' s' hcon
      cases hcon
      exact hos s' rfl
  · rw [accountRows_empty db a he] at hp
    rw [List.mem_singleton] at hp
    subst hp
    refine ⟨rfl, ?_, ?_⟩
    · intro h os hcon; cases hcon
    · intro h s hcon; cases hcon

/-- Forward inversion for the whole join clause. -/
lemma joinRows_shape (db : DBState) (p : Account × Option (Holding × Option Asset))
    (hp : p ∈ joinRows db) :
    p.1 ∈ db.accounts ∧
      (∀ h os, p.2 = some (h, os) → h ∈ db.holdings ∧ h.account_id = p.1.id) ∧
      (∀ h s, p.2 = some (h, some s) → s ∈ db.assets ∧ s.id = h.asset_id) := by
  obtain ⟨a, ha, hpa⟩ := List.mem_flatMap.mp hp
  obtain ⟨h1, h2, h3⟩ := accountRows_shape db a p hpa
  subst h1
  exact ⟨ha, h2, h3⟩

/-- A fully joined (account, holding, asset) triple is in the join clause exactly when
the three rows are present and the join conditions hold. -/
lemma mem_joinRows_full (db : DBState) (a : Account) (h : Holding) (s : Asset) :
    (a, some (h, some s)) ∈ joinRows db ↔
      a ∈ db.accounts ∧ h ∈ db.holdings ∧ h.account_id = a.id ∧
        s ∈ db.assets ∧ s.id = h.asset_id := by
  constructor
  · intro hp
    obtain ⟨h1, h2, h3⟩ := joinRows_shape db _ hp
    obtain ⟨hh, hha⟩ := h2 h (some s) rfl
    obtain ⟨hs, hsa⟩ := h3 h s rfl
    exact ⟨h1, hh, hha, hs, hsa⟩
  · rintro ⟨ha, hh, hha, hs, hsa⟩
    refine List.mem_flatMap.mpr ⟨a, ha, ?_⟩
    have hhf : h ∈ db.holdings.filter (fun h' => h'.account_id == a.id) :=
      List.mem_filter.mpr ⟨hh, by simpa using hha⟩
    rw [accountRows_flat db a (isEmpty_false_of_mem hhf)]
    refine List.mem_flatMap.mpr ⟨h, hhf, ?_⟩
    have hsf : s ∈ db.assets.filter (fun s' => s'.id == h.asset_id) :=
      List.mem_filter.mpr ⟨hs, by simpa using hsa⟩
    rw [assetRows_found db a h (isEmpty_false_of_mem hsf)]
    exact List.mem_map.mpr ⟨s, hsf, rfl⟩

/-- The `account_id` column of a view row is the id of its generating account. -/
lemma viewRowOf_account_id (t : Option Rat) (p : Account × Option (Holding × Option Asset)) :
    (viewRowOf t p).account_id = p.1.id := by
  rcases p with ⟨a, _ | ⟨h, _ | s⟩⟩ <;> rfl

/-- The `user_id` column of a view row is the user id of its generating account. -/
lemma viewRowOf_user_id (t : Option Rat) (p : Account × Option (Holding × Option Asset)) :
    (viewRowOf t p).user_id = p.1.user_id := by
  rcases p with ⟨a, _ | ⟨h, _ | s⟩⟩ <;> rfl

/-- The `market_value` column of a view row is `rowMV` of its generating joined row. -/
lemma viewRowOf_market_value (t : Option Rat)
    (p : Account × Option (Holding × Option Asset)) :
    (viewRowOf t p).market_value = rowMV p := by
  rcases p with ⟨a, _ | ⟨h, _ | s⟩⟩ <;> rfl

/-- The `percent` column of a view row. -/
lemma viewRowOf_percent (t : Option Rat) (p : Account × Option (Holding × Option Asset)) :
    (viewRowOf t p).percent = sqlPercent t (rowMV p) := by
  rcases p with ⟨a, _ | ⟨h, _ | s⟩⟩ <;> rfl

/-- A non-null `asset_id` column comes from a fully joined holding/asset pair. -/
lemma viewRowOf_asset_id_some (t : Option Rat)
    (p : Account × Option (Holding × Option Asset)) (x : Nat)
    (hx : (viewRowOf t p).asset_id = some x) :
    ∃ h s, p.2 = some (h, some s) ∧ s.id = x := by
  rcases p with ⟨a, _ | ⟨h, _ | s⟩⟩
  · cases hx
  · cases hx
  · exact ⟨h, s, rfl, by cases hx; rfl⟩

/-- Membership inversion for the view. -/
lemma mem_baseHoldings {db : DBState} {r : ViewRow} (hr : r ∈ baseHoldings db) :
    ∃ p ∈ joinRows db, r = viewRowOf (totalMV db) p := by
  obtain ⟨p, hp, hr'⟩ := List.mem_map.mp hr
  exact ⟨p, hp, hr'.symm⟩

/-- Rows of `all_holdings` come from the view. -/
lemma mem_allHoldingsList {u : Nat} {db : DBState} {r : ViewRow}
    (hr : r ∈ allHoldingsList u db) :
    ∃ p ∈ joinRows db, r = viewRowOf (totalMV db) p :=
  mem_baseHoldings (List.mem_filter.mp (List.mem_filter.mp hr).1).1

/-- C4: `update_holding` rewrites only the `shares` column of the holdings rows keyed
by `holding_id` and `update_asset` only the `current_price` column of the assets rows
keyed by `asset_id`; every other column and every other row of every table is
unchanged, and no ownership check happens: a row owned by a user other than the
gateway's is updated all the same. -/
theorem update_ops_frame (u : Nat) (db db1 db2 : DBState) (hid aid : Nat)
    (sh : Int) (pr : Rat)
    (h1 : update_holding (some u) db hid sh = Except.ok db1)
    (h2 : update_asset (some u) db aid pr = Except.ok db2) :
    (db1.users = db.users ∧ db1.accounts = db.accounts ∧ db1.assets = db.assets ∧
      db1.holdings.length = db.holdings.length ∧
      ∀ (i : Nat) (h h' : Holding), db.holdings[i]? = some h →
        db1.holdings[i]? = some h' →
        h'.id = h.id ∧ h'.asset_id = h.asset_id ∧ h'.account_id = h.account_id ∧
          h'.user_id = h.user_id ∧ (h.id = hid → h'.shares = sh) ∧
          (h.id ≠ hid → h' = h)) ∧
    (db2.users = db.users ∧ db2.accounts = db.accounts ∧ db2.holdings = db.holdings ∧
      db2.assets.length = db.assets.length ∧
      ∀ (i : Nat) (s s' : Asset), db.assets[i]? = some s → db2.assets[i]? = some s' →
        s'.id = s.id ∧ s'.ticker = s.ticker ∧ s'.name = s.name ∧
          s'.category = s.category ∧ s'.user_id = s.user_id ∧
          (s.id = aid → s'.current_price = pr) ∧ (s.id ≠ aid → s' = s)) ∧
    (∀ (i : Nat) (h : Holding), db.holdings[i]? = some h → h.id = hid →
      h.user_id ≠ u → ∃ h', db1.holdings[i]? = some h' ∧ h'.shares = sh) ∧
    (∀ (i : Nat) (s : Asset), db.assets[i]? = some s → s.id = aid → s.user_id ≠ u →
      ∃ s', db2.assets[i]? = some s' ∧ s'.current_price = pr) := by
  rw [update_holding_ok] at h1
  rw [update_asset_ok] at h2
  injection h1 with h1
  injection h2 with h2
  have hh1 : db1.holdings = db.holdings.map (fun h =>
      if h.id == hid then { h with shares := sh } else h) := by rw [← h1]
  have hu1 : db1.users = db.users := by rw [← h1]
  have ha1 : db1.accounts = db.accounts := by rw [← h1]
  have hs1 : db1.assets = db.assets := by rw [← h1]
  have hs2 : db2.assets = db.assets.map (fun s =>
      if s.id == aid then { s with current_price := pr } else s) := by rw [← h2]
  have hu2 : db2.users = db.users := by rw [← h2]
  have ha2 : db2.accounts = db.accounts := by rw [← h2]
  have hh2 : db2.holdings = db.holdings := by rw [← h2]
  refine ⟨⟨hu1, ha1, hs1, by rw [hh1]; simp, ?_⟩,
    ⟨hu2, ha2, hh2, by rw [hs2]; simp, ?_⟩, ?_, ?_⟩
  · intro i h h' hi hi'
    rw [hh1, List.getElem?_map, hi, Option.map_some'] at hi'
    have hfn := Option.some.inj hi'
    by_cases hcase : h.id = hid
    · rw [if_pos (by simpa using hcase)] at hfn
      subst hfn
      exact ⟨rfl, rfl, rfl, rfl, fun _ => rfl, fun hne => absurd hcase hne⟩
    · rw [if_neg (by simpa using hcase)] at hfn
      subst hfn
      exact ⟨rfl, rfl, rfl, rfl, fun heq => absurd heq hcase, fun _ => rfl⟩
  · intro i s s' hi hi'
    rw [hs2, List.getElem?_map, hi, Option.map_some'] at hi'
    have hfn := Option.some.inj hi'
    by_cases hcase : s.id = aid
    · rw [if_pos (by simpa using hcase)] at hfn
      subst hfn
      exact ⟨rfl, rfl, rfl, rfl, rfl, fun _ => rfl, fun hne => absurd hcase hne⟩
    · rw [if_neg (by simpa using hcase)] at hfn
      subst hfn
      exact ⟨rfl, rfl, rfl, rfl, rfl, fun heq => absurd heq hcase, fun _ => rfl⟩
  · intro i h hi hkey _hown
    refine ⟨{ h with shares := sh }, ?_, rfl⟩
    rw [hh1, List.getElem?_map, hi, Option.map_some', if_pos (by simpa using hkey)]
  · intro i s hi hkey _hown
    refine ⟨{ s with current_price := pr }, ?_, rfl⟩
    rw [hs2, List.getElem?_map, hi, Option.map_some', if_pos (by simpa using hkey)]

/-- Database used by the C4 witness: one asset and one holding, owned by user 2. -/
def dbC4 : DBState :=
  { users := [], accounts := [⟨1, "acct", "broker", 2⟩],
    assets := [⟨1, "TK", "tkname", "stock", 2, 2⟩],
    holdings := [⟨1, 1, 1, 3, 2⟩],
    next_user_id := 3, next_account_id := 2, next_asset_id := 2,
    next_holding_id := 2 }

/-- C4 result state after `update_holding(1, 7)` as user 1. -/
def dbC4h : DBState := { dbC4 with holdings := [⟨1, 1, 1, 7, 2⟩] }

/-- C4 result state after `update_asset(1, 5)` as user 1. -/
def dbC4a : DBState := { dbC4 with assets := [⟨1, "TK", "tkname", "stock", 5, 2⟩] }

/-- Witness for C4: user 1 updates rows owned by user 2. -/
theorem update_ops_frame_witness :
    update_holding (some 1) dbC4 1 7 = Except.ok dbC4h ∧
    update_asset (some 1) dbC4 1 5 = Except.ok dbC4a ∧
    ((dbC4h.users = dbC4.users ∧ dbC4h.accounts = dbC4.accounts ∧
        dbC4h.assets = dbC4.assets ∧
        dbC4h.holdings.length = dbC4.holdings.length ∧
        ∀ (i : Nat) (h h' : Holding), dbC4.holdings[i]? = some h →
          dbC4h.holdings[i]? = some h' →
          h'.id = h.id ∧ h'.asset_id = h.asset_id ∧ h'.account_id = h.account_id ∧
            h'.user_id = h.user_id ∧ (h.id = 1 → h'.shares = 7) ∧
            (h.id ≠ 1 → h' = h)) ∧
      (dbC4a.users = dbC4.users ∧ dbC4a.accounts = dbC4.accounts ∧
        dbC4a.holdings = dbC4.holdings ∧
        dbC4a.assets.length = dbC4.assets.length ∧
        ∀ (i : Nat) (s s' : Asset), dbC4.assets[i]? = some s →
          dbC4a.assets[i]? = some s' →
          s'.id = s.id ∧ s'.ticker = s.ticker ∧ s'.name = s.name ∧
            s'.category = s.category ∧ s'.user_id = s.user_id ∧
            (s.id = 1 → s'.current_price = 5) ∧ (s.id ≠ 1 → s' = s)) ∧
      (∀ (i : Nat) (h : Holding), dbC4.holdings[i]? = some h → h.id = 1 →
        h.user_id ≠ 1 → ∃ h', dbC4h.holdings[i]? = some h' ∧ h'.shares = 7) ∧
      (∀ (i : Nat) (s : Asset), dbC4.assets[i]? = some s → s.id = 1 →
        s.user_id ≠ 1 → ∃ s', dbC4a.assets[i]? = some s' ∧ s'.current_price = 5)) :=
  ⟨rfl, rfl, update_ops_frame 1 dbC4 dbC4h dbC4a 1 1 7 5 rfl rfl⟩

/-- C7: deleting an account (resp. an asset) cascades to the holdings referencing it:
exactly the holdings with that `account_id` (resp. `asset_id`) disappear, and no row
for that account (resp. asset) is left in `all_holdings`; `delete_holding` touches
only the holdings table, removing exactly the rows keyed by the given id. -/
theorem delete_cascade (u : Nat) (db dbA dbS dbH : DBState) (aid sid hid : Nat)
    (hA : delete_account (some u) db aid = Except.ok dbA)
    (hS : delete_asset (some u) db sid = Except.ok dbS)
    (hH : delete_holding (some u) db hid = Except.ok dbH) :
    (∀ h ∈ dbA.holdings, h.account_id ≠ aid) ∧
    (∀ h ∈ db.holdings, h.account_id ≠ aid → h ∈ dbA.holdings) ∧
    (∀ r ∈ allHoldingsList u dbA, r.account_id ≠ aid) ∧
    (∀ h ∈ dbS.holdings, h.asset_id ≠ sid) ∧
    (∀ h ∈ db.holdings, h.asset_id ≠ sid → h ∈ dbS.holdings) ∧
    (∀ r ∈ allHoldingsList u dbS, r.asset_id ≠ some sid) ∧
    dbH.users = db.users ∧ dbH.accounts = db.accounts ∧ dbH.assets = db.assets ∧
    (∀ h ∈ db.holdings, h.id ≠ hid → h ∈ dbH.holdings) ∧
    (∀ h ∈ dbH.holdings, h.id ≠ hid ∧ h ∈ db.holdings) := by
  rw [delete_account_ok] at hA
  rw [delete_asset_ok] at hS
  rw [delete_holding_ok] at hH
  injection hA with hA
  injection hS with hS
  injection hH with hH
  subst hA
  subst hS
  subst hH
  refine ⟨?_, ?_, ?_, ?_, ?_, ?_, rfl, rfl, rfl, ?_, ?_⟩
  · intro h hh
    have := (List.mem_filter.mp hh).2
    simpa using this
  · intro h hh hne
    exact List.mem_filter.mpr ⟨hh, by simpa using hne⟩
  · intro r hr
    obtain ⟨p, hp, hreq⟩ := mem_allHoldingsList hr
    have hacc := (joinRows_shape _ p hp).1
    have hid' := (List.mem_filter.mp hacc).2
    rw [hreq, viewRowOf_account_id]
    simpa using hid'
  · intro h hh
    have := (List.mem_filter.mp hh).2
    simpa using this
  · intro h hh hne
    exact List.mem_filter.mpr ⟨hh, by simpa using hne⟩
  · intro r hr heq
    obtain ⟨p, hp, hreq⟩ := mem_allHoldingsList hr
    rw [hreq] at heq
    obtain ⟨h, s, hps, hsid⟩ := viewRowOf_asset_id_some _ p sid heq
    obtain ⟨hs, _⟩ := (joinRows_shape _ p hp).2.2 h s hps
    have := (List.mem_filter.mp hs).2
    rw [hsid] at this
    simp at this
  · intro h hh hne
    exact List.mem_filter.mpr ⟨hh, by simpa using hne⟩
  · intro h hh
    have h1 := List.mem_filter.mp hh
    exact ⟨by simpa using h1.2, h1.1⟩

/-- Database used by the C7 witness: user 1 with two accounts, one asset, and one
holding in each account. -/
def dbC7 : DBState :=
  { users := [⟨1, "u", "hash"⟩],
    accounts := [⟨1, "first", "broker", 1⟩, ⟨2, "second", "ira", 1⟩],
    assets := [⟨1, "TK", "tkname", "stock", 2, 1⟩],
    holdings := [⟨1, 1, 1, 3, 1⟩, ⟨2, 1, 2, 4, 1⟩],
    next_user_id := 2, next_account_id := 3, next_asset_id := 2,
    next_holding_id := 3 }

/-- C7 result state after `delete_account(1)`. -/
def dbC7A : DBState :=
  { dbC7 with accounts := [⟨2, "second", "ira", 1⟩], holdings := [⟨2, 1, 2, 4, 1⟩] }

/-- C7 result state after `delete_asset(1)`. -/
def dbC7S : DBState := { dbC7 with assets := [], holdings := [] }

/-- C7 result state after `delete_holding(1)`. -/
def dbC7H : DBState := { dbC7 with holdings := [⟨2, 1, 2, 4, 1⟩] }

/-- Witness for C7 at the concrete two-account state. -/
theorem delete_cascade_witness :
    delete_account (some 1) dbC7 1 = Except.ok dbC7A ∧
    delete_asset (some 1) dbC7 1 = Except.ok dbC7S ∧
    delete_holding (some 1) dbC7 1 = Except.ok dbC7H ∧
    ((∀ h ∈ dbC7A.holdings, h.account_id ≠ 1) ∧
      (∀ h ∈ dbC7.holdings, h.account_id ≠ 1 → h ∈ dbC7A.holdings) ∧
      (∀ r ∈ allHoldingsList 1 dbC7A, r.account_id ≠ 1) ∧
      (∀ h ∈ dbC7S.holdings, h.asset_id ≠ 1) ∧
      (∀ h ∈ dbC7.holdings, h.asset_id ≠ 1 → h ∈ dbC7S.holdings) ∧
      (∀ r ∈ allHoldingsList 1 dbC7S, r.asset_id ≠ some 1) ∧
      dbC7H.users = dbC7.users ∧ dbC7H.accounts = dbC7.accounts ∧
      dbC7H.assets = dbC7.assets ∧
      (∀ h ∈ dbC7.holdings, h.id ≠ 1 → h ∈ dbC7H.holdings) ∧
      (∀ h ∈ dbC7H.holdings, h.id ≠ 1 ∧ h ∈ dbC7.holdings)) :=
  ⟨rfl, rfl, rfl, delete_cascade 1 dbC7 dbC7A dbC7S dbC7H 1 1 1 rfl rfl rfl⟩

/-- `fetchone` on a non-empty result list returns a member of it. -/
lemma mem_of_head? {α : Type} {l : List α} {a : α} (h : l.head? = some a) : a ∈ l := by
  cases l with
  | nil => cases h
  | cons x xs =>
    cases h
    exact List.mem_cons_self _ _

/-- A view row with a non-null `shares` column comes from a matched holding. -/
lemma viewRowOf_shares_some (t : Option Rat)
    (p : Account × Option (Holding × Option Asset))
    (hx : (viewRowOf t p).shares.isSome = true) :
    ∃ h os, p.2 = some (h, os) := by
  rcases p with ⟨a, _ | ⟨h, _ | s⟩⟩
  · cases hx
  · exact ⟨h, none, rfl⟩
  · exact ⟨h, some s, rfl⟩

/-- Rows of the user-filtered base query belong to the gateway user. -/
lemma userFilteredRows_user {u : Nat} {db : DBState} {r : ViewRow}
    (hr : r ∈ userFilteredRows u db) : r.user_id = u := by
  have := (List.mem_filter.mp hr).2
  simpa using this

/-- C3 (amended): `find_asset` queries by primary key with no user filter, so a
gateway bound to user `u` retrieves an asset owned by a different user `v`; but
`find_holding` runs through the user-filtered base query, so every row it can return
belongs to the gateway's user (a lookup of another user's holding yields none rather
than that row). -/
theorem find_scoping (u v aid hid : Nat) (db : DBState) (s : Asset)
    (hs : db.assets.filter (fun x => x.id == aid) = [s])
    (hv : s.user_id = v) (hne : v ≠ u) :
    find_asset (some u) db aid = Except.ok (some s) ∧
    s.user_id ≠ u ∧
    (∀ r : ViewRow, find_holding (some u) db hid = Except.ok (some r) →
      r.user_id = u) := by
  refine ⟨?_, by rw [hv]; exact hne, ?_⟩
  · rw [find_asset_ok, hs]
    rfl
  · intro r hr
    rw [find_holding_ok] at hr
    have hr' : findHoldingRow u hid db = some r := Except.ok.inj hr
    have hmem := mem_of_head? hr'
    have hmem2 := (List.mem_filter.mp hmem).1
    have hmem3 := (List.mem_filter.mp hmem2).1
    exact userFilteredRows_user hmem3

/-- Database used for C3: asset 1, account 1 and holding 1 all belong to user 2. -/
def dbC3 : DBState :=
  { users := [⟨2, "other", "hash"⟩],
    accounts := [⟨1, "acct", "broker", 2⟩],
    assets := [⟨1, "TK", "tkname", "stock", 2, 2⟩],
    holdings := [⟨1, 1, 1, 3, 2⟩],
    next_user_id := 3, next_account_id := 2, next_asset_id := 2,
    next_holding_id := 2 }

/-- Counterexample to C3 as stated: holding 1 exists and belongs (through its
account) to user 2, yet `find_holding` called by user 1 returns an empty result, not
user 2's row. -/
theorem find_holding_scoped_cex :
    (∃ h ∈ dbC3.holdings, h.id = 1) ∧
    (∃ a ∈ dbC3.accounts, a.id = 1 ∧ a.user_id = 2) ∧
    find_holding (some 2) dbC3 1 ≠ Except.ok none ∧
    find_holding (some 1) dbC3 1 = Except.ok none := by
  refine ⟨⟨⟨1, 1, 1, 3, 2⟩, by decide, rfl⟩, ⟨⟨1, "acct", "broker", 2⟩, by decide,
    rfl, rfl⟩, ?_, ?_⟩
  · intro hcon
    rw [find_holding_ok] at hcon
    have := Except.ok.inj hcon
    rw [show findHoldingRow 2 1 dbC3 =
      some (viewRowOf (totalMV dbC3) (⟨1, "acct", "broker", 2⟩,
        some (⟨1, 1, 1, 3, 2⟩, some ⟨1, "TK", "tkname", "stock", 2, 2⟩))) from rfl]
      at this
    cases this
  · rw [find_holding_ok]
    rw [show findHoldingRow 1 1 dbC3 = none from rfl]

/-- Witness for the amended C3 theorem: user 1 looks up user 2's asset. -/
theorem find_scoping_witness :
    dbC3.assets.filter (fun x => x.id == 1) = [⟨1, "TK", "tkname", "stock", 2, 2⟩] ∧
    (⟨1, "TK", "tkname", "stock", 2, 2⟩ : Asset).user_id = 2 ∧
    (find_asset (some 1) dbC3 1 =
        Except.ok (some ⟨1, "TK", "tkname", "stock", 2, 2⟩) ∧
      (⟨1, "TK", "tkname", "stock", 2, 2⟩ : Asset).user_id ≠ 1 ∧
      (∀ r : ViewRow, find_holding (some 1) dbC3 1 = Except.ok (some r) →
        r.user_id = 1)) :=
  ⟨by decide, rfl,
    find_scoping 1 2 1 1 dbC3 ⟨1, "TK", "tkname", "stock", 2, 2⟩ (by decide) rfl
      (by decide)⟩

/-- C5: `account_holdings` keeps left-join semantics: a matching account of the
current user with no holdings yields a row whose asset columns are all null; by
contrast `all_holdings` adds the `shares IS NOT NULL` filter, so every row it returns
has a holding, and an account without holdings never appears in it. -/
theorem account_holdings_left_join (u aid : Nat) (db : DBState) (a : Account)
    (ha : a ∈ db.accounts) (hu : a.user_id = u) (haid : a.id = aid)
    (hnoh : ∀ h ∈ db.holdings, h.account_id ≠ a.id) :
    (∃ r ∈ accountHoldingsList u aid db,
        r.account_id = a.id ∧ r.user_id = u ∧ r.account_name = a.account_name ∧
        r.account_type = a.account_type ∧ r.ticker = none ∧ r.name = none ∧
        r.category = none ∧ r.current_price = none ∧ r.shares = none ∧
        r.market_value = none) ∧
    (∀ r ∈ allHoldingsList u db, r.shares.isSome = true) ∧
    (∀ r ∈ allHoldingsList u db, r.account_id ≠ a.id) ∧
    account_holdings (some u) db aid = Except.ok (accountHoldingsList u aid db) ∧
    all_holdings (some u) db = Except.ok (allHoldingsList u db) := by
  refine ⟨?_, ?_, ?_, rfl, rfl⟩
  · have hfil : db.holdings.filter (fun h => h.account_id == a.id) = [] :=
      List.filter_eq_nil_iff.mpr (fun h hh => by simpa using hnoh h hh)
    have hrow : (a, (none : Option (Holding × Option Asset))) ∈ joinRows db := by
      refine List.mem_flatMap.mpr ⟨a, ha, ?_⟩
      rw [accountRows_empty db a (by rw [hfil]; rfl)]
      exact List.mem_singleton.mpr rfl
    refine ⟨viewRowOf (totalMV db) (a, none), ?_, rfl, hu, rfl, rfl, rfl, rfl, rfl,
      rfl, rfl, rfl⟩
    refine List.mem_filter.mpr ⟨List.mem_filter.mpr ⟨?_, ?_⟩, ?_⟩
    · exact List.mem_map.mpr ⟨(a, none), hrow, rfl⟩
    · simpa using hu
    · simpa using haid
  · intro r hr
    exact (List.mem_filter.mp hr).2
  · intro r hr heq
    obtain ⟨p, hp, hreq⟩ := mem_allHoldingsList hr
    have hsome : r.shares.isSome = true := (List.mem_filter.mp hr).2
    rw [hreq] at hsome
    obtain ⟨h, os, hpos⟩ := viewRowOf_shares_some _ p hsome
    obtain ⟨hh, hha⟩ := (joinRows_shape db p hp).2.1 h os hpos
    apply hnoh h hh
    rw [hha, ← viewRowOf_account_id (totalMV db) p, ← hreq, heq]

/-- Database used for the C5 witness: user 1 has account 1 with no holdings. -/
def dbC5 : DBState :=
  { users := [⟨1, "u", "hash"⟩],
    accounts := [⟨1, "empty acct", "broker", 1⟩],
    assets := [], holdings := [],
    next_user_id := 2, next_account_id := 2, next_asset_id := 1,
    next_holding_id := 1 }

/-- Witness for C5 at the concrete one-account, no-holdings state. -/
theorem account_holdings_left_join_witness :
    (⟨1, "empty acct", "broker", 1⟩ : Account) ∈ dbC5.accounts ∧
    (∀ h ∈ dbC5.holdings, h.account_id ≠ 1) ∧
    ((∃ r ∈ accountHoldingsList 1 1 dbC5,
        r.account_id = 1 ∧ r.user_id = 1 ∧ r.account_name = "empty acct" ∧
        r.account_type = "broker" ∧ r.ticker = none ∧ r.name = none ∧
        r.category = none ∧ r.current_price = none ∧ r.shares = none ∧
        r.market_value = none) ∧
      (∀ r ∈ allHoldingsList 1 dbC5, r.shares.isSome = true) ∧
      (∀ r ∈ allHoldingsList 1 dbC5, r.account_id ≠ 1) ∧
      account_holdings (some 1) dbC5 1 = Except.ok (accountHoldingsList 1 1 dbC5) ∧
      all_holdings (some 1) dbC5 = Except.ok (allHoldingsList 1 dbC5)) :=
  ⟨by decide, by decide,
    account_holdings_left_join 1 1 dbC5 ⟨1, "empty acct", "broker", 1⟩ (by decide)
      rfl rfl (by decide)⟩

/-- C6: in a single-user portfolio with exactly one account, one asset, and one
holding of positive market value, `account_totals()` reports one row with
`number_holdings = 1` and `total_market_value` equal to the holding's market value
`current_price * shares`, and the `percent` column sums to exactly 1 across the
returned accounts. -/
theorem account_totals_single (u : Nat) (db : DBState) (a : Account) (s : Asset)
    (h : Holding) (hacc : db.accounts = [a]) (hass : db.assets = [s])
    (hhold : db.holdings = [h]) (hha : h.account_id = a.id) (hhs : h.asset_id = s.id)
    (hu : a.user_id = u) (hp1 : 0 < s.current_price) (hp2 : 0 < h.shares) :
    0 < s.current_price * (h.shares : Rat) ∧
    accountTotalsList u db =
      [⟨a.account_name, a.account_type, a.id, 1,
        some (s.current_price * (h.shares : Rat)), some 1⟩] ∧
    sqlSumOpt ((accountTotalsList u db).map (fun row => row.percent)) = some 1 ∧
    account_totals (some u) db =
      Except.ok (accountTotalsList u db, accountTotalsColumns) := by
  have hmv : (0 : Rat) < s.current_price * (h.shares : Rat) :=
    mul_pos hp1 (by exact_mod_cast hp2)
  have hjoin : joinRows db = [(a, some (h, some s))] := by
    simp [joinRows, accountRows, assetRows, hacc, hass, hhold, hha, hhs]
  have htot : totalMV db = some (s.current_price * (h.shares : Rat)) := by
    simp [totalMV, hjoin, rowMV, sqlSumOpt]
  have hpct : sqlPercent (totalMV db) (some (s.current_price * (h.shares : Rat))) =
      some 1 := by
    rw [htot]
    simp only [sqlPercent, if_pos hmv, Option.map_some']
    rw [div_self (ne_of_gt hmv)]
  have hbase : baseHoldings db =
      [viewRowOf (totalMV db) (a, some (h, some s))] := by
    rw [baseHoldings, hjoin]
    rfl
  have hrow : viewRowOf (totalMV db) (a, some (h, some s)) =
      { account_name := a.account_name, account_type := a.account_type,
        ticker := some s.ticker, name := some s.name, category := some s.category,
        current_price := some s.current_price, shares := some h.shares,
        market_value := some (s.current_price * (h.shares : Rat)),
        percent := some 1, asset_id := some s.id, account_id := a.id,
        holding_id := some h.id, user_id := a.user_id } := by
    rw [viewRowOf]
    rw [hpct]
  have hbase2 : userFilteredRows u db =
      [{ account_name := a.account_name, account_type := a.account_type,
         ticker := some s.ticker, name := some s.name, category := some s.category,
         current_price := some s.current_price, shares := some h.shares,
         market_value := some (s.current_price * (h.shares : Rat)),
         percent := some 1, asset_id := some s.id, account_id := a.id,
         holding_id := some h.id, user_id := a.user_id }] := by
    rw [userFilteredRows, hbase, hrow]
    simp [hu]
  have hlist : accountTotalsList u db =
      [⟨a.account_name, a.account_type, a.id, 1,
        some (s.current_price * (h.shares : Rat)), some 1⟩] := by
    rw [accountTotalsList, hbase2]
    simp [accountKey, dedupFirst, sqlSumOpt]
  refine ⟨hmv, hlist, ?_, rfl⟩
  rw [hlist]
  simp [sqlSumOpt]

/-- Database used for the C6 witness: one user, one account, one asset at price 2,
one holding of 3 shares. -/
def dbC6 : DBState :=
  { users := [⟨1, "u", "hash"⟩],
    accounts := [⟨1, "acct", "broker", 1⟩],
    assets := [⟨1, "TK", "tkname", "stock", 2, 1⟩],
    holdings := [⟨1, 1, 1, 3, 1⟩],
    next_user_id := 2, next_account_id := 2, next_asset_id := 2,
    next_holding_id := 2 }

/-- Witness for C6 at the concrete single-holding state. -/
theorem account_totals_single_witness :
    dbC6.accounts = [⟨1, "acct", "broker", 1⟩] ∧
    (0 : Rat) < 2 ∧ (0 : Int) < 3 ∧
    (0 < (2 : Rat) * ((3 : Int) : Rat) ∧
      accountTotalsList 1 dbC6 =
        [⟨"acct", "broker", 1, 1, some ((2 : Rat) * ((3 : Int) : Rat)), some 1⟩] ∧
      sqlSumOpt ((accountTotalsList 1 dbC6).map (fun row => row.percent)) = some 1 ∧
      account_totals (some 1) dbC6 =
        Except.ok (accountTotalsList 1 dbC6, accountTotalsColumns)) :=
  ⟨rfl, by decide, by decide,
    account_totals_single 1 dbC6 ⟨1, "acct", "broker", 1⟩
      ⟨1, "TK", "tkname", "stock", 2, 1⟩ ⟨1, 1, 1, 3, 1⟩ rfl rfl rfl rfl rfl rfl
      (by decide) (by decide)⟩

/-! Lemmas about `dedupFirst`, grouping, and the `asset_totals` join. -/

lemma mem_dedupFirst {α : Type} [BEq α] [LawfulBEq α] {l : List α} {x : α} :
    x ∈ dedupFirst l ↔ x ∈ l := by
  induction l with
  | nil => simp [dedupFirst]
  | cons a t ih =>
    simp only [dedupFirst, List.mem_cons, List.mem_filter]
    constructor
    · rintro (rfl | ⟨hx, _⟩)
      · exact Or.inl rfl
      · exact Or.inr (ih.mp hx)
    · rintro (rfl | hx)
      · exact Or.inl rfl
      · by_cases hax : x = a
        · exact Or.inl hax
        · exact Or.inr ⟨ih.mpr hx, by simpa using hax⟩

lemma dedupFirst_nodup {α : Type} [BEq α] [LawfulBEq α] (l : List α) :
    (dedupFirst l).Nodup := by
  induction l with
  | nil => simp [dedupFirst]
  | cons a t ih =>
    rw [dedupFirst, List.nodup_cons]
    refine ⟨?_, List.Nodup.filter _ ih⟩
    intro hmem
    have := (List.mem_filter.mp hmem).2
    simp at this

lemma filter_beq_singleton {κ : Type} [BEq κ] [LawfulBEq κ] (l : List κ)
    (hnd : l.Nodup) (x : κ) (hx : x ∈ l) : l.filter (fun y => y == x) = [x] := by
  induction l with
  | nil => cases hx
  | cons a t ih =>
    rw [List.nodup_cons] at hnd
    rcases List.mem_cons.mp hx with rfl | hxt
    · rw [List.filter_cons_of_pos (by simp)]
      have ht : t.filter (fun y => y == x) = [] := by
        refine List.filter_eq_nil_iff.mpr ?_
        intro y hy hbeq
        rw [eq_of_beq hbeq] at hy
        exact hnd.1 hy
      rw [ht]
    · have hax : ¬(a = x) := by
        rintro rfl
        exact hnd.1 hxt
      rw [List.filter_cons_of_neg (by simpa using hax)]
      exact ih hnd.2 hxt

lemma sqlMin_const (l : List Rat) (c : Rat) (hall : ∀ x ∈ l, x = c) (hne : l ≠ []) :
    sqlMin l = some c := by
  induction l with
  | nil => cases hne rfl
  | cons a t ih =>
    have ha : a = c := hall a (List.mem_cons_self _ _)
    cases t with
    | nil => rw [sqlMin, sqlMin, ha]
    | cons b t' =>
      have ht : sqlMin (b :: t') = some c :=
        ih (fun x hx => hall x (List.mem_cons_of_mem _ hx)) (by simp)
      rw [sqlMin, ht, ha]
      simp

/-- The `asset_totals` join written without the intermediate bindings. -/
lemma assetJoin_eq (u : Nat) (db : DBState) :
    assetJoin u db = db.assets.flatMap (fun s =>
      if ((userFilteredRows u db).filter
          (fun r => r.asset_id == some s.id)).isEmpty then [(s, none)]
      else ((userFilteredRows u db).filter
          (fun r => r.asset_id == some s.id)).map (fun r => (s, some r))) := rfl

/-- Forward inversion for the `asset_totals` left join. -/
lemma assetJoin_shape (u : Nat) (db : DBState) (p : Asset × Option ViewRow)
    (hp : p ∈ assetJoin u db) :
    p.1 ∈ db.assets ∧
      ∀ r, p.2 = some r → r ∈ userFilteredRows u db ∧ r.asset_id = some p.1.id := by
  rw [assetJoin_eq] at hp
  obtain ⟨s, hs, hps⟩ := List.mem_flatMap.mp hp
  cases he : ((userFilteredRows u db).filter
      (fun r => r.asset_id == some s.id)).isEmpty
  · rw [if_neg (by rw [he]; simp)] at hps
    obtain ⟨r, hr, rfl⟩ := List.mem_map.mp hps
    have hr' := List.mem_filter.mp hr
    refine ⟨hs, fun r' hr'' => ?_⟩
    cases hr''
    exact ⟨hr'.1, by simpa using hr'.2⟩
  · rw [if_pos he] at hps
    rw [List.mem_singleton] at hps
    subst hps
    exact ⟨hs, fun r hcon => by cases hcon⟩

/-- Membership in the user-equality-filtered `asset_totals` join. -/
lemma mem_assetJoinFiltered (u : Nat) (db : DBState) (s : Asset) (r : ViewRow)
    (hsr : (s, r) ∈ assetJoinFiltered u db) :
    s ∈ db.assets ∧ r ∈ userFilteredRows u db ∧ r.asset_id = some s.id ∧
      s.user_id = r.user_id := by
  obtain ⟨p, hp, hf⟩ := List.mem_filterMap.mp hsr
  rcases p with ⟨s', _ | r'⟩
  · cases hf
  · have hf' : (if s'.user_id == r'.user_id then some (s', r') else none) =
        some (s, r) := hf
    by_cases hbe : (s'.user_id == r'.user_id) = true
    · rw [if_pos hbe] at hf'
      have h2 := Option.some.inj hf'
      have h3 : s' = s := congrArg Prod.fst h2
      have h4 : r' = r := congrArg Prod.snd h2
      subst h3
      subst h4
      obtain ⟨hmem, hcond⟩ := assetJoin_shape u db (s', some r') hp
      obtain ⟨hbase, hid⟩ := hcond r' rfl
      exact ⟨hmem, hbase, hid, eq_of_beq hbe⟩
    · rw [if_neg hbe] at hf'
      cases hf'

/-- A base-query row matching an asset of the same user survives the
`asset_totals` join and filter. -/
lemma mem_assetJoinFiltered_of (u : Nat) (db : DBState) (s : Asset) (r : ViewRow)
    (hs : s ∈ db.assets) (hr : r ∈ userFilteredRows u db)
    (hid : r.asset_id = some s.id) (huser : s.user_id = r.user_id) :
    (s, r) ∈ assetJoinFiltered u db := by
  have hrf : r ∈ (userFilteredRows u db).filter (fun x => x.asset_id == some s.id) :=
    List.mem_filter.mpr ⟨hr, by simpa using hid⟩
  have hj : (s, some r) ∈ assetJoin u db := by
    rw [assetJoin_eq]
    refine List.mem_flatMap.mpr ⟨s, hs, ?_⟩
    rw [if_neg (by rw [isEmpty_false_of_mem hrf]; simp)]
    exact List.mem_map.mpr ⟨r, hrf, rfl⟩
  refine List.mem_filterMap.mpr ⟨(s, some r), hj, ?_⟩
  show (if s.user_id == r.user_id then some (s, r) else none) = some (s, r)
  rw [if_pos (by simpa using huser)]

/-- The SELECT list of `asset_totals()` applied to one group key. -/
def mkAssetRow (u : Nat) (db : DBState) (k : Nat × String × String × String) :
    AssetTotalsRow :=
  { id := k.1, ticker := k.2.1, name := k.2.2.1, category := k.2.2.2,
    current_price := sqlMin (((assetJoinFiltered u db).filter
      (fun p => assetKey p.1 == k)).map (fun p => p.1.current_price)),
    total_shares := sqlSumInt (((assetJoinFiltered u db).filter
      (fun p => assetKey p.1 == k)).map (fun p => p.2.shares)),
    accounts_holding := (dedupFirst (((assetJoinFiltered u db).filter
      (fun p => assetKey p.1 == k)).map (fun p => p.2.account_id))).length,
    total_market_value := sqlSumOpt (((assetJoinFiltered u db).filter
      (fun p => assetKey p.1 == k)).map (fun p => p.2.market_value)),
    percent := sqlSumOpt (((assetJoinFiltered u db).filter
      (fun p => assetKey p.1 == k)).map (fun p => p.2.percent)) }

/-- `asset_totals` written without the intermediate bindings. -/
lemma assetTotalsList_eq (u : Nat) (db : DBState) :
    assetTotalsList u db =
      (dedupFirst ((assetJoinFiltered u db).map (fun p => assetKey p.1))).map
        (mkAssetRow u db) := rfl

/-- C2 (amended): `asset_totals()` produces one row per asset of the current user
that has at least one holding; an asset with zero holdings does NOT appear, because
the `WHERE assets.user_id = base_query.user_id` clause, evaluated after the left
join, is never true on the null-extended rows (the left join degenerates to an inner
join).  For assets that do appear, `MIN(current_price)` reports the asset's price. -/
theorem asset_totals_join_scope (u : Nat) (db : DBState) (s : Asset)
    (hnd : (db.assets.map (fun x => x.id)).Nodup)
    (hs : s ∈ db.assets) :
    ((∀ h ∈ db.holdings, h.asset_id ≠ s.id) →
      ∀ row ∈ assetTotalsList u db, row.id ≠ s.id) ∧
    (∀ (a : Account) (h : Holding), s.user_id = u → a ∈ db.accounts →
      h ∈ db.holdings → h.account_id = a.id → a.user_id = u → h.asset_id = s.id →
      ∃ row : AssetTotalsRow,
        (assetTotalsList u db).filter (fun x => x.id == s.id) = [row] ∧
        row.ticker = s.ticker ∧ row.name = s.name ∧ row.category = s.category ∧
        row.current_price = some s.current_price) ∧
    asset_totals (some u) db = Except.ok (assetTotalsList u db, assetTotalsColumns) := by
  refine ⟨?_, ?_, rfl⟩
  · intro hnoh row hrow heq
    rw [assetTotalsList_eq] at hrow
    obtain ⟨k, hk, hkrow⟩ := List.mem_map.mp hrow
    have hkid : k.1 = s.id := by rw [← heq, ← hkrow]; rfl
    obtain ⟨q, hq, hqk⟩ := List.mem_map.mp (mem_dedupFirst.mp hk)
    rcases q with ⟨s', r⟩
    obtain ⟨hs', hrbase, hrid, _⟩ := mem_assetJoinFiltered u db s' r hq
    have hs'id : s'.id = s.id := by
      have : (assetKey s').1 = k.1 := by rw [hqk]
      rw [← this] at hkid
      exact hkid
    obtain ⟨p, hp, hreq⟩ := mem_baseHoldings (List.mem_filter.mp hrbase).1
    rw [hreq] at hrid
    obtain ⟨h', s'', hpos, hs''⟩ := viewRowOf_asset_id_some _ p s'.id hrid
    obtain ⟨hh', _⟩ := (joinRows_shape db p hp).2.1 h' (some s'') hpos
    obtain ⟨_, hs''id⟩ := (joinRows_shape db p hp).2.2 h' s'' hpos
    exact hnoh h' hh' (by rw [← hs''id, hs'', hs'id])
  · intro a h hsu ha hh hha hau hhs
    have hjr : (a, some (h, some s)) ∈ joinRows db :=
      (mem_joinRows_full db a h s).mpr ⟨ha, hh, hha, hs, hhs.symm⟩
    have hrbase : viewRowOf (totalMV db) (a, some (h, some s)) ∈ baseHoldings db :=
      List.mem_map.mpr ⟨(a, some (h, some s)), hjr, rfl⟩
    have hruf : viewRowOf (totalMV db) (a, some (h, some s)) ∈ userFilteredRows u db :=
      List.mem_filter.mpr ⟨hrbase, by
        rw [viewRowOf_user_id, hau]
        simp⟩
    have hmem : (s, viewRowOf (totalMV db) (a, some (h, some s))) ∈
        assetJoinFiltered u db := by
      refine mem_assetJoinFiltered_of u db s _ hs hruf rfl ?_
      rw [viewRowOf_user_id, hau, hsu]
    have hk : assetKey s ∈
        dedupFirst ((assetJoinFiltered u db).map (fun p => assetKey p.1)) :=
      mem_dedupFirst.mpr (List.mem_map.mpr ⟨_, hmem, rfl⟩)
    have hfactA : ∀ k ∈ dedupFirst ((assetJoinFiltered u db).map
        (fun p => assetKey p.1)), k.1 = s.id → k = assetKey s := by
      intro k hkmem hkid
      obtain ⟨q, hq, hqk⟩ := List.mem_map.mp (mem_dedupFirst.mp hkmem)
      rcases q with ⟨s', r⟩
      obtain ⟨hs', _, _, _⟩ := mem_assetJoinFiltered u db s' r hq
      have hs'id : s'.id = s.id := by
        have h5 : s'.id = k.1 := by rw [← hqk]; rfl
        rw [h5, hkid]
      have hss : s' = s := List.inj_on_of_nodup_map hnd hs' hs hs'id
      rw [← hqk, hss]
    have hchain : (assetTotalsList u db).filter (fun x => x.id == s.id) =
        ((dedupFirst ((assetJoinFiltered u db).map (fun p => assetKey p.1))).filter
          (fun k => k == assetKey s)).map (mkAssetRow u db) := by
      rw [assetTotalsList_eq, List.filter_map]
      congr 1
      apply List.filter_congr
      intro k hkmem
      show (k.1 == s.id) = (k == assetKey s)
      by_cases hkc : k.1 = s.id
      · have hke := hfactA k hkmem hkc
        rw [hke]
        simp [assetKey]
      · have hne : ¬(k = assetKey s) := fun hcon => hkc (by rw [hcon]; rfl)
        simp [hkc, hne]
    rw [filter_beq_singleton _ (dedupFirst_nodup _) _ hk] at hchain
    have hgrp1 : ∀ q ∈ (assetJoinFiltered u db).filter
        (fun p => assetKey p.1 == assetKey s), q.1 = s := by
      intro q hq
      obtain ⟨hqrows, hqbeq⟩ := List.mem_filter.mp hq
      have hkeq : assetKey q.1 = assetKey s := by simpa using hqbeq
      have hqid : q.1.id = s.id := congrArg (fun k => k.1) hkeq
      rcases q with ⟨s', r⟩
      exact List.inj_on_of_nodup_map hnd
        (mem_assetJoinFiltered u db s' r hqrows).1 hs hqid
    have hgrpmem : (s, viewRowOf (totalMV db) (a, some (h, some s))) ∈
        (assetJoinFiltered u db).filter (fun p => assetKey p.1 == assetKey s) :=
      List.mem_filter.mpr ⟨hmem, by simp⟩
    have hmin : sqlMin (((assetJoinFiltered u db).filter
        (fun p => assetKey p.1 == assetKey s)).map (fun p => p.1.current_price)) =
        some s.current_price := by
      apply sqlMin_const
      · intro x hx
        obtain ⟨q, hq, hqx⟩ := List.mem_map.mp hx
        rw [← hqx, hgrp1 q hq]
      · exact List.ne_nil_of_mem (List.mem_map.mpr ⟨_, hgrpmem, rfl⟩)
    rw [List.map_singleton] at hchain
    exact ⟨_, hchain, rfl, rfl, rfl, hmin⟩

/-- Database used for C2: user 1 owns asset 1 but has no holdings at all (and one
empty account, so the base view is not empty). -/
def dbC2 : DBState :=
  { users := [⟨1, "u", "hash"⟩],
    accounts := [⟨1, "acct", "broker", 1⟩],
    assets := [⟨1, "TK", "tkname", "stock", 2, 1⟩],
    holdings := [],
    next_user_id := 2, next_account_id := 2, next_asset_id := 2,
    next_holding_id := 1 }

/-- Counterexample to C2 as stated: user 1 owns an asset with zero holdings, yet
`asset_totals()` returns no row at all for that user (the claim says the asset still
appears, with a distinct-account count of 0). -/
theorem asset_totals_zero_holdings_cex :
    (∃ s ∈ dbC2.assets, s.user_id = 1) ∧
    dbC2.holdings = [] ∧
    asset_totals (some 1) dbC2 = Except.ok ([], assetTotalsColumns) :=
  ⟨⟨⟨1, "TK", "tkname", "stock", 2, 1⟩, by decide, rfl⟩, rfl, rfl⟩

/-- Database used for the C2 witness: asset 1 has a holding, asset 2 has none. -/
def dbC2w : DBState :=
  { users := [⟨1, "u", "hash"⟩],
    accounts := [⟨1, "acct", "broker", 1⟩],
    assets := [⟨1, "TK", "tkname", "stock", 2, 1⟩, ⟨2, "T2", "other", "bond", 3, 1⟩],
    holdings := [⟨1, 1, 1, 3, 1⟩],
    next_user_id := 2, next_account_id := 2, next_asset_id := 3,
    next_holding_id := 2 }

/-- Witness for the amended C2 theorem at asset 1 of `dbC2w`. -/
theorem asset_totals_join_scope_witness :
    (dbC2w.assets.map (fun x => x.id)).Nodup ∧
    (⟨1, "TK", "tkname", "stock", 2, 1⟩ : Asset) ∈ dbC2w.assets ∧
    (((∀ h ∈ dbC2w.holdings, h.asset_id ≠ 1) →
        ∀ row ∈ assetTotalsList 1 dbC2w, row.id ≠ 1) ∧
      (∀ (a : Account) (h : Holding), (1 : Nat) = 1 → a ∈ dbC2w.accounts →
        h ∈ dbC2w.holdings → h.account_id = a.id → a.user_id = 1 → h.asset_id = 1 →
        ∃ row : AssetTotalsRow,
          (assetTotalsList 1 dbC2w).filter (fun x => x.id == 1) = [row] ∧
          row.ticker = "TK" ∧ row.name = "tkname" ∧ row.category = "stock" ∧
          row.current_price = some 2) ∧
      asset_totals (some 1) dbC2w =
        Except.ok (assetTotalsList 1 dbC2w, assetTotalsColumns)) :=
  ⟨by decide, by decide,
    asset_totals_join_scope 1 dbC2w ⟨1, "TK", "tkname", "stock", 2, 1⟩ (by decide)
      (by decide)⟩

/-! Helper lemmas for the window-aggregate claim. -/

lemma sum_map_split {α : Type} (f : α → Rat) (p : α → Bool) (l : List α) :
    (l.map f).sum =
      ((l.filter p).map f).sum + ((l.filter (fun x => !p x)).map f).sum := by
  have hperm := (List.filter_append_perm p l).map f
  rw [← hperm.sum_eq, List.map_append, List.sum_append]

lemma sum_filterMap_split {α : Type} (f : α → Option Rat) (p : α → Bool)
    (l : List α) :
    (l.filterMap f).sum =
      ((l.filter p).filterMap f).sum +
        ((l.filter (fun x => !p x)).filterMap f).sum := by
  have hperm := (List.filter_append_perm p l).filterMap f
  rw [← hperm.sum_eq, List.filterMap_append, List.sum_append]

lemma msum_flatMap {α β : Type} (g : α → List β) (f : β → Option Rat) (l : List α) :
    ((l.flatMap g).filterMap f).sum =
      (l.map (fun a => ((g a).filterMap f).sum)).sum := by
  induction l with
  | nil => rfl
  | cons a t ih =>
    rw [List.flatMap_cons, List.filterMap_append, List.sum_append, List.map_cons,
      List.sum_cons, ih]

lemma key_filter_singleton {α κ : Type} [BEq κ] [LawfulBEq κ] (key : α → κ)
    (l : List α) (hnd : (l.map key).Nodup) (x : α) (hx : x ∈ l) :
    l.filter (fun y => key y == key x) = [x] := by
  induction l with
  | nil => cases hx
  | cons a t ih =>
    rw [List.map_cons, List.nodup_cons] at hnd
    rcases List.mem_cons.mp hx with rfl | hxt
    · rw [List.filter_cons_of_pos (by simp)]
      have ht : t.filter (fun y => key y == key x) = [] := by
        refine List.filter_eq_nil_iff.mpr ?_
        intro y hy hbeq
        exact hnd.1 (by rw [← eq_of_beq hbeq]; exact List.mem_map_of_mem key hy)
      rw [ht]
    · have hax : ¬(key a = key x) := by
        intro hcon
        exact hnd.1 (by rw [hcon]; exact List.mem_map_of_mem key hxt)
      rw [List.filter_cons_of_neg (by simpa using hax)]
      exact ih hnd.2 hxt

lemma sum_ite_key {α κ : Type} [BEq κ] [LawfulBEq κ] (key : α → κ) (l : List α)
    (hnd : (l.map key).Nodup) (x : α) (hx : x ∈ l) (c : Rat) :
    (l.map (fun y => if key y == key x then c else 0)).sum = c := by
  induction l with
  | nil => cases hx
  | cons a t ih =>
    rw [List.map_cons, List.nodup_cons] at hnd
    rw [List.map_cons, List.sum_cons]
    rcases List.mem_cons.mp hx with rfl | hxt
    · rw [if_pos (by simp)]
      have ht : (t.map (fun y => if key y == key x then c else 0)).sum = 0 := by
        apply List.sum_eq_zero
        intro z hz
        obtain ⟨y, hy, hyz⟩ := List.mem_map.mp hz
        rw [← hyz, if_neg ?_]
        intro hbeq
        exact hnd.1 (by rw [← eq_of_beq hbeq]; exact List.mem_map_of_mem key hy)
      rw [ht, add_zero]
    · have hax : ¬(key a = key x) := by
        intro hcon
        exact hnd.1 (by rw [hcon]; exact List.mem_map_of_mem key hxt)
      rw [if_neg (by simpa using hax), ih hnd.2 hxt, zero_add]

lemma filter_filter_of_imp {α : Type} (p q : α → Bool) (l : List α)
    (himp : ∀ x ∈ l, q x = true → p x = true) :
    (l.filter p).filter q = l.filter q := by
  rw [List.filter_filter]
  apply List.filter_congr
  intro x hx
  cases hq : q x
  · simp
  · simp [himp x hx hq]

lemma sum_map_div {α : Type} (f : α → Rat) (l : List α) (T : Rat) :
    (l.map (fun x => f x / T)).sum = (l.map f).sum / T := by
  induction l with
  | nil => simp
  | cons a t ih =>
    rw [List.map_cons, List.sum_cons, ih, List.map_cons, List.sum_cons, add_div]

lemma filterMap_option_map {α β γ : Type} (f : α → Option β) (g : β → γ)
    (l : List α) :
    l.filterMap (fun x => (f x).map g) = (l.filterMap f).map g := by
  induction l with
  | nil => rfl
  | cons a t ih =>
    cases hfa : f a
    · rw [List.filterMap_cons, List.filterMap_cons, hfa]
      simpa using ih
    · rw [List.filterMap_cons, List.filterMap_cons, hfa]
      simpa using ih

lemma filter_flatMap {α β : Type} (l : List α) (g : α → List β) (p : β → Bool) :
    (l.flatMap g).filter p = l.flatMap (fun a => (g a).filter p) := by
  induction l with
  | nil => rfl
  | cons a t ih =>
    rw [List.flatMap_cons, List.flatMap_cons, List.filter_append, ih]

/-- The `shares` column is non-null exactly when a holding was joined. -/
lemma viewRowOf_shares_isSome (t : Option Rat)
    (p : Account × Option (Holding × Option Asset)) :
    (viewRowOf t p).shares.isSome = p.2.isSome := by
  rcases p with ⟨a, _ | ⟨h, _ | s⟩⟩ <;> rfl

/-- A non-null market value comes from a fully joined holding/asset pair. -/
lemma rowMV_some {p : Account × Option (Holding × Option Asset)} {m : Rat}
    (hm : rowMV p = some m) :
    ∃ h s, p.2 = some (h, some s) ∧ m = s.current_price * (h.shares : Rat) := by
  rcases p with ⟨a, _ | ⟨h, _ | s⟩⟩
  · cases hm
  · cases hm
  · exact ⟨h, s, rfl, (Option.some.inj hm).symm⟩

/-- `all_holdings` as a filter of the join clause followed by the SELECT list. -/
lemma allHoldingsList_eq (u : Nat) (db : DBState) :
    allHoldingsList u db =
      ((joinRows db).filter (fun p => p.1.user_id == u && p.2.isSome)).map
        (viewRowOf (totalMV db)) := by
  unfold allHoldingsList userFilteredRows baseHoldings
  rw [List.filter_map, List.filter_map, List.filter_filter]
  congr 1
  apply List.filter_congr
  intro p hp
  show ((viewRowOf (totalMV db) p).shares.isSome &&
      ((viewRowOf (totalMV db) p).user_id == u)) = _
  rw [viewRowOf_shares_isSome, viewRowOf_user_id, Bool.and_comm]

/-- The window total, unfolded when at least one market value is non-null. -/
lemma totalMV_eq_of_ne (db : DBState)
    (h : (joinRows db).filterMap rowMV ≠ []) :
    totalMV db = some (((joinRows db).filterMap rowMV).sum) := by
  unfold totalMV sqlSumOpt
  rw [List.filterMap_map]
  rw [if_neg (by simpa [List.isEmpty_iff] using h)]
  rfl

/-- `accountRows` only depends on the asset table and the holdings matching the
account. -/
lemma accountRows_congr (db1 db2 : DBState) (a : Account)
    (hass : db1.assets = db2.assets)
    (hh : db1.holdings.filter (fun h => h.account_id == a.id) =
      db2.holdings.filter (fun h => h.account_id == a.id)) :
    accountRows db1 a = accountRows db2 a := by
  have hfun : assetRows db1 a = assetRows db2 a := by
    funext h
    unfold assetRows
    rw [hass]
  cases he : (db2.holdings.filter (fun h => h.account_id == a.id)).isEmpty
  · rw [accountRows_flat db1 a (by rw [hh]; exact he),
      accountRows_flat db2 a he, hh, hfun]
  · rw [accountRows_empty db1 a (by rw [hh]; exact he), accountRows_empty db2 a he]

/-- Every row of `accountRows db a` carries the account `a` in first position. -/
lemma accountRows_fst (db : DBState) (a : Account)
    (p : Account × Option (Holding × Option Asset)) (hp : p ∈ accountRows db a) :
    p.1 = a :=
  (accountRows_shape db a p hp).1

/-- When the window total is positive, the `percent` column of every view row is its
market value divided by that total. -/
lemma baseHoldings_percent (db : DBState) (T : Rat) (htot : totalMV db = some T)
    (hT : 0 < T) :
    ∀ r ∈ baseHoldings db, r.percent = r.market_value.map (fun m => m / T) := by
  intro r hr
  obtain ⟨p, _, rfl⟩ := mem_baseHoldings hr
  rw [viewRowOf_percent, viewRowOf_market_value, htot]
  show (if 0 < T then Option.map (fun m => m / T) (rowMV p) else some 0) = _
  rw [if_pos hT]

/-- Whether a view row has positive market value (decidably, for witnesses). -/
def isPosMV (r : ViewRow) : Bool :=
  match r.market_value with
  | some m => decide (0 < m)
  | none => false

lemma isPosMV_elim {r : ViewRow} (h : isPosMV r = true) :
    ∃ m : Rat, r.market_value = some m ∧ 0 < m := by
  unfold isPosMV at h
  cases hmv : r.market_value with
  | none => rw [hmv] at h; cases h
  | some m =>
    rw [hmv] at h
    exact ⟨m, rfl, of_decide_eq_true h⟩

/-- The state left behind by `delete_holding`. -/
def deleteHoldingState (db : DBState) (holding_id : Nat) : DBState :=
  { db with holdings := db.holdings.filter (fun x => !(x.id == holding_id)) }

lemma delete_holding_ok' (u : Nat) (db : DBState) (holding_id : Nat) :
    delete_holding (some u) db holding_id =
      Except.ok (deleteHoldingState db holding_id) := rfl

lemma deleteHoldingState_accounts (db : DBState) (holding_id : Nat) :
    (deleteHoldingState db holding_id).accounts = db.accounts := rfl

lemma deleteHoldingState_assets (db : DBState) (holding_id : Nat) :
    (deleteHoldingState db holding_id).assets = db.assets := rfl

lemma deleteHoldingState_holdings (db : DBState) (holding_id : Nat) :
    (deleteHoldingState db holding_id).holdings =
      db.holdings.filter (fun x => !(x.id == holding_id)) := rfl

/-- Deleting the holding of an account that does not belong to user `u` leaves the
joined rows that user `u` sees unchanged. -/
lemma filtered_join_delete (db : DBState) (u : Nat) (b : Account) (h0 : Holding)
    (hndA : (db.accounts.map (fun a => a.id)).Nodup)
    (hndH : (db.holdings.map (fun x => x.id)).Nodup)
    (hb : b ∈ db.accounts) (hh0 : h0 ∈ db.holdings) (hacc : h0.account_id = b.id)
    (hbu : b.user_id ≠ u) :
    (joinRows (deleteHoldingState db h0.id)).filter
      (fun p => p.1.user_id == u && p.2.isSome) =
    (joinRows db).filter (fun p => p.1.user_id == u && p.2.isSome) := by
  rw [joinRows, joinRows, deleteHoldingState_accounts, filter_flatMap,
    filter_flatMap, List.flatMap_def, List.flatMap_def]
  congr 1
  apply List.map_congr_left
  intro a ha
  by_cases hau : a.user_id = u
  · have haid : a.id ≠ b.id := by
      intro hcon
      have : a = b := List.inj_on_of_nodup_map hndA ha hb hcon
      rw [this] at hau
      exact hbu hau
    have hcongr : accountRows (deleteHoldingState db h0.id) a = accountRows db a := by
      apply accountRows_congr
      · rfl
      · rw [deleteHoldingState_holdings]
        apply filter_filter_of_imp
        intro x hx hq
        have hxa : x.account_id = a.id := by simpa using hq
        by_cases hxh : x.id = h0.id
        · have : x = h0 := List.inj_on_of_nodup_map hndH hx hh0 hxh
          rw [this] at hxa
          rw [hacc] at hxa
          exact absurd hxa.symm haid
        · simpa using hxh
    rw [hcongr]
  · have h1 : ∀ (dbx : DBState), (accountRows dbx a).filter
        (fun p => p.1.user_id == u && p.2.isSome) = [] := by
      intro dbx
      refine List.filter_eq_nil_iff.mpr ?_
      intro p hp hpred
      rw [accountRows_fst dbx a p hp] at hpred
      rw [Bool.and_eq_true] at hpred
      exact hau (by simpa using hpred.1)
    rw [h1, h1]

lemma sum_map_add {α : Type} (g h : α → Rat) (l : List α) :
    (l.map (fun a => g a + h a)).sum = (l.map g).sum + (l.map h).sum := by
  induction l with
  | nil => simp
  | cons x t ih =>
    simp only [List.map_cons, List.sum_cons, ih]
    ring

/-- Deleting one holding (with unique primary keys) removes exactly its market value
from the window total's underlying sum. -/
lemma totalSum_delete (db : DBState) (b : Account) (h0 : Holding) (s0 : Asset)
    (hndA : (db.accounts.map (fun a => a.id)).Nodup)
    (hndH : (db.holdings.map (fun x => x.id)).Nodup)
    (hndS : (db.assets.map (fun x => x.id)).Nodup)
    (hb : b ∈ db.accounts) (hh0 : h0 ∈ db.holdings) (hs0 : s0 ∈ db.assets)
    (hacc : h0.account_id = b.id) (hsid : s0.id = h0.asset_id) :
    ((joinRows db).filterMap rowMV).sum =
      ((joinRows (deleteHoldingState db h0.id)).filterMap rowMV).sum +
        s0.current_price * (h0.shares : Rat) := by
  rw [joinRows, joinRows, deleteHoldingState_accounts, msum_flatMap, msum_flatMap]
  have hpoint : ∀ a ∈ db.accounts,
      ((accountRows db a).filterMap rowMV).sum =
        ((accountRows (deleteHoldingState db h0.id) a).filterMap rowMV).sum +
          (if a.id == b.id then s0.current_price * (h0.shares : Rat) else 0) := by
    intro a ha
    by_cases hid : a.id = b.id
    · have hab : a = b := List.inj_on_of_nodup_map hndA ha hb hid
      subst hab
      rw [if_pos (show (a.id == a.id) = true by simp)]
      have hsb : h0 ∈ db.holdings.filter (fun x => x.account_id == a.id) :=
        List.mem_filter.mpr ⟨hh0, by simpa using hacc⟩
      have hndHs : ((db.holdings.filter (fun x => x.account_id == a.id)).map
          (fun x => x.id)).Nodup :=
        List.Nodup.sublist (List.Sublist.map _ (List.filter_sublist _)) hndH
      have hfun : assetRows (deleteHoldingState db h0.id) a = assetRows db a := by
        funext h
        unfold assetRows
        rfl
      have hb0 : db.assets.filter (fun x => x.id == h0.asset_id) = [s0] := by
        rw [← hsid]
        exact key_filter_singleton (fun x => x.id) db.assets hndS s0 hs0
      have hblock : ((assetRows db a h0).filterMap rowMV).sum =
          s0.current_price * (h0.shares : Rat) := by
        rw [assetRows_found db a h0 (by rw [hb0]; rfl), hb0]
        simp [rowMV]
      rw [accountRows_flat db a (isEmpty_false_of_mem hsb), msum_flatMap]
      rw [sum_map_split _ (fun x => x.id == h0.id)]
      have hfid : (db.holdings.filter (fun x => x.account_id == a.id)).filter
          (fun x => x.id == h0.id) = [h0] :=
        key_filter_singleton (fun x => x.id) _ hndHs h0 hsb
      rw [hfid]
      have hdb' : (deleteHoldingState db h0.id).holdings.filter
          (fun x => x.account_id == a.id) =
          (db.holdings.filter (fun x => x.account_id == a.id)).filter
            (fun x => !(x.id == h0.id)) := by
        rw [deleteHoldingState_holdings, List.filter_filter, List.filter_filter]
        apply List.filter_congr
        intro x _
        rw [Bool.and_comm]
      cases hemp : ((db.holdings.filter (fun x => x.account_id == a.id)).filter
          (fun x => !(x.id == h0.id))).isEmpty
      · rw [accountRows_flat _ a (by rw [hdb']; exact hemp), hdb', hfun,
          msum_flatMap]
        simp only [List.map_singleton, List.sum_singleton]
        rw [hblock]
        ring
      · rw [accountRows_empty _ a (by rw [hdb']; exact hemp)]
        rw [List.isEmpty_iff.mp hemp]
        simp only [List.map_singleton, List.sum_singleton, List.map_nil,
          List.sum_nil, add_zero]
        rw [hblock]
        simp [rowMV]
    · have hcongr : accountRows (deleteHoldingState db h0.id) a =
          accountRows db a := by
        apply accountRows_congr
        · rfl
        · rw [deleteHoldingState_holdings]
          apply filter_filter_of_imp
          intro x hx hq
          have hxa : x.account_id = a.id := by simpa using hq
          by_cases hxh : x.id = h0.id
          · have hxe : x = h0 := List.inj_on_of_nodup_map hndH hx hh0 hxh
            rw [hxe, hacc] at hxa
            exact absurd hxa.symm hid
          · simpa using hxh
      rw [hcongr, if_neg (by simpa using hid), add_zero]
  rw [List.map_congr_left hpoint, sum_map_add]
  congr 1
  exact sum_ite_key (fun a => a.id) db.accounts hndA b hb _

/-- The CASE expression at a positive window total. -/
lemma sqlPercent_pos (T : Rat) (hT : 0 < T) (mv : Option Rat) :
    sqlPercent (some T) mv = mv.map (fun m => m / T) := by
  show (if 0 < T then mv.map (fun m => m / T) else some 0) = _
  rw [if_pos hT]

/-- The CASE expression at a non-positive window total. -/
lemma sqlPercent_nonpos (T : Rat) (hT : ¬(0 < T)) (mv : Option Rat) :
    sqlPercent (some T) mv = some 0 := by
  show (if 0 < T then mv.map (fun m => m / T) else some 0) = some 0
  rw [if_neg hT]

lemma filterMap_congr_mem {α β : Type} (f g : α → Option β) (l : List α)
    (h : ∀ a ∈ l, f a = g a) : l.filterMap f = l.filterMap g := by
  induction l with
  | nil => rfl
  | cons a t ih =>
    rw [List.filterMap_cons, List.filterMap_cons, h a (List.mem_cons_self _ _)]
    cases g a
    · exact ih fun x hx => h x (List.mem_cons_of_mem _ hx)
    · rw [ih fun x hx => h x (List.mem_cons_of_mem _ hx)]

/-- C1 (amended): with unique primary keys and nonnegative market values, when two
distinct users `u` and `v` each own a holding with positive market value, the window
total `T` ranges over ALL users' rows: every row `all_holdings`/`account_holdings`
returns to `u` carries `percent = market_value / T`, the percents of `u`'s rows sum
to strictly less than 1, and deleting one of `v`'s holdings changes the percents `u`
observes. -/
theorem percent_window_cross_tenant (u v : Nat) (db : DBState)
    (hndA : (db.accounts.map (fun a => a.id)).Nodup)
    (hndH : (db.holdings.map (fun x => x.id)).Nodup)
    (hndS : (db.assets.map (fun x => x.id)).Nodup)
    (huv : u ≠ v)
    (hnn : ∀ p ∈ joinRows db, ∀ m : Rat, rowMV p = some m → 0 ≤ m)
    (hU : ∃ r ∈ allHoldingsList u db, isPosMV r = true)
    (hV : ∃ r ∈ allHoldingsList v db, isPosMV r = true) :
    ∃ T : Rat, totalMV db = some T ∧ 0 < T ∧
      (∀ r ∈ allHoldingsList u db,
        r.percent = r.market_value.map (fun m => m / T)) ∧
      (∀ (aid : Nat), ∀ r ∈ accountHoldingsList u aid db,
        r.percent = r.market_value.map (fun m => m / T)) ∧
      ((allHoldingsList u db).filterMap (fun r => r.percent)).sum < 1 ∧
      (∃ hid : Nat, ∃ db' : DBState,
        delete_holding (some u) db hid = Except.ok db' ∧
        db'.accounts = db.accounts ∧ db'.assets = db.assets ∧
        (∀ x ∈ db.holdings, x ∉ db'.holdings →
          ∃ a ∈ db.accounts, a.user_id = v ∧ x.account_id = a.id) ∧
        (allHoldingsList u db').map (fun r => r.percent) ≠
          (allHoldingsList u db).map (fun r => r.percent)) ∧
      all_holdings (some u) db = Except.ok (allHoldingsList u db) ∧
      (∀ aid : Nat, account_holdings (some u) db aid =
        Except.ok (accountHoldingsList u aid db)) := by
  obtain ⟨ru, hru, hrupos⟩ := hU
  obtain ⟨m0, hm0, hm0pos⟩ := isPosMV_elim hrupos
  obtain ⟨p0, hp0j, hp0eq⟩ := mem_allHoldingsList hru
  have hp0mv : rowMV p0 = some m0 := by
    rw [← viewRowOf_market_value (totalMV db) p0, ← hp0eq]
    exact hm0
  obtain ⟨rv, hrv, hrvpos⟩ := hV
  obtain ⟨mV, hmV, hmVpos⟩ := isPosMV_elim hrvpos
  obtain ⟨pv, hpvj, hpveq⟩ := mem_allHoldingsList hrv
  have hpvmv : rowMV pv = some mV := by
    rw [← viewRowOf_market_value (totalMV db) pv, ← hpveq]
    exact hmV
  obtain ⟨h0, s0, hpv2, hmveq⟩ := rowMV_some hpvmv
  rcases pv with ⟨b, pv2⟩
  cases hpv2
  obtain ⟨hbacc, hsh1, hsh2⟩ := joinRows_shape db (b, some (h0, some s0)) hpvj
  obtain ⟨hh0, hh0acc⟩ := hsh1 h0 (some s0) rfl
  obtain ⟨hs0, hs0id⟩ := hsh2 h0 s0 rfl
  have hbv : b.user_id = v := by
    have h1 := userFilteredRows_user (List.mem_filter.mp hrv).1
    rw [hpveq, viewRowOf_user_id] at h1
    exact h1
  have hbu : b.user_id ≠ u := by
    rw [hbv]
    exact fun hc => huv hc.symm
  have hm0mem : m0 ∈ (joinRows db).filterMap rowMV :=
    List.mem_filterMap.mpr ⟨p0, hp0j, hp0mv⟩
  have hne : (joinRows db).filterMap rowMV ≠ [] := List.ne_nil_of_mem hm0mem
  have hnn' : ∀ x ∈ (joinRows db).filterMap rowMV, 0 ≤ x := by
    intro x hx
    obtain ⟨p, hp, hpx⟩ := List.mem_filterMap.mp hx
    exact hnn p hp x hpx
  have hTpos : 0 < ((joinRows db).filterMap rowMV).sum :=
    lt_of_lt_of_le hm0pos (List.single_le_sum hnn' m0 hm0mem)
  have hperc := baseHoldings_percent db (((joinRows db).filterMap rowMV).sum)
    (totalMV_eq_of_ne db hne) hTpos
  -- user `u`'s positive row also sits in the filtered join clause
  have hp0f : p0 ∈ (joinRows db).filter (fun p => p.1.user_id == u && p.2.isSome) := by
    refine List.mem_filter.mpr ⟨hp0j, ?_⟩
    rw [Bool.and_eq_true]
    constructor
    · have h1 := userFilteredRows_user (List.mem_filter.mp hru).1
      rw [hp0eq, viewRowOf_user_id] at h1
      simpa using h1
    · have h2 := (List.mem_filter.mp hru).2
      rw [hp0eq, viewRowOf_shares_isSome] at h2
      exact h2
  refine ⟨((joinRows db).filterMap rowMV).sum, totalMV_eq_of_ne db hne, hTpos,
    ?_, ?_, ?_, ?_, rfl, fun aid => rfl⟩
  · intro r hr
    exact hperc r (List.mem_filter.mp (List.mem_filter.mp hr).1).1
  · intro aid r hr
    exact hperc r (List.mem_filter.mp (List.mem_filter.mp hr).1).1
  · -- the percents of u's rows sum to Σ(u's market values) / T < 1
    have hmapeq : (allHoldingsList u db).filterMap (fun r => r.percent) =
        (((joinRows db).filter
          (fun p => p.1.user_id == u && p.2.isSome)).filterMap rowMV).map
          (fun m => m / ((joinRows db).filterMap rowMV).sum) := by
      rw [allHoldingsList_eq, List.filterMap_map]
      rw [filterMap_congr_mem _ (fun p => (rowMV p).map
        (fun m => m / ((joinRows db).filterMap rowMV).sum)) _ ?_]
      · exact filterMap_option_map rowMV _ _
      · intro p hp
        show (viewRowOf (totalMV db) p).percent =
          Option.map (fun m => m / ((joinRows db).filterMap rowMV).sum) (rowMV p)
        rw [← viewRowOf_market_value (totalMV db) p]
        exact hperc _ (List.mem_map.mpr ⟨p, List.mem_of_mem_filter hp, rfl⟩)
    rw [hmapeq, sum_map_div (fun x => x)]
    rw [List.map_id']
    rw [div_lt_one hTpos]
    rw [sum_filterMap_split rowMV (fun p => p.1.user_id == u && p.2.isSome)
      (joinRows db)]
    have hpvrest : (b, some (h0, some s0)) ∈ (joinRows db).filter
        (fun p => !(p.1.user_id == u && p.2.isSome)) := by
      refine List.mem_filter.mpr ⟨hpvj, ?_⟩
      have : (b.user_id == u) = false := by
        simpa using hbu
      simp [this]
    have hmVmem : mV ∈ ((joinRows db).filter
        (fun p => !(p.1.user_id == u && p.2.isSome))).filterMap rowMV :=
      List.mem_filterMap.mpr ⟨_, hpvrest, hpvmv⟩
    have hrestnn : ∀ x ∈ ((joinRows db).filter
        (fun p => !(p.1.user_id == u && p.2.isSome))).filterMap rowMV, 0 ≤ x := by
      intro x hx
      obtain ⟨p, hp, hpx⟩ := List.mem_filterMap.mp hx
      exact hnn p (List.mem_of_mem_filter hp) x hpx
    have hrest : 0 < (((joinRows db).filter
        (fun p => !(p.1.user_id == u && p.2.isSome))).filterMap rowMV).sum :=
      lt_of_lt_of_le hmVpos (List.single_le_sum hrestnn mV hmVmem)
    linarith
  · -- deleting v's holding h0 changes the percents u observes
    refine ⟨h0.id, deleteHoldingState db h0.id, delete_holding_ok' u db h0.id,
      rfl, rfl, ?_, ?_⟩
    · intro x hx hnx
      have hxid : x.id = h0.id := by
        by_contra hne'
        exact hnx (List.mem_filter.mpr ⟨hx, by simpa using hne'⟩)
      have hxe : x = h0 := List.inj_on_of_nodup_map hndH hx hh0 hxid
      exact ⟨b, hbacc, hbv, by rw [hxe]; exact hh0acc⟩
    · have hTT' : ((joinRows db).filterMap rowMV).sum =
          ((joinRows (deleteHoldingState db h0.id)).filterMap rowMV).sum + mV := by
        rw [hmveq]
        exact totalSum_delete db b h0 s0 hndA hndH hndS hbacc hh0 hs0 hh0acc hs0id
      have hJU := filtered_join_delete db u b h0 hndA hndH hbacc hh0 hh0acc hbu
      have hp0f' : p0 ∈ joinRows (deleteHoldingState db h0.id) := by
        refine List.mem_of_mem_filter (p := fun p => p.1.user_id == u && p.2.isSome) ?_
        rw [hJU]
        exact hp0f
      have hm0mem' : m0 ∈ (joinRows (deleteHoldingState db h0.id)).filterMap rowMV :=
        List.mem_filterMap.mpr ⟨p0, hp0f', hp0mv⟩
      have hne' : (joinRows (deleteHoldingState db h0.id)).filterMap rowMV ≠ [] :=
        List.ne_nil_of_mem hm0mem'
      have hnn'' : ∀ x ∈ (joinRows (deleteHoldingState db h0.id)).filterMap rowMV,
          0 ≤ x := by
        intro x hx
        obtain ⟨p', hp', hpx⟩ := List.mem_filterMap.mp hx
        obtain ⟨h', s', hp'2, hxeq⟩ := rowMV_some hpx
        obtain ⟨ha', h2', h3'⟩ := joinRows_shape _ p' hp'
        obtain ⟨hh', hha'⟩ := h2' h' (some s') hp'2
        obtain ⟨hs', hsa'⟩ := h3' h' s' hp'2
        have hh'db : h' ∈ db.holdings := List.mem_of_mem_filter hh'
        have hmem2 : (p'.1, some (h', some s')) ∈ joinRows db :=
          (mem_joinRows_full db p'.1 h' s').mpr ⟨ha', hh'db, hha', hs', hsa'⟩
        refine hnn _ hmem2 x ?_
        rw [show rowMV (p'.1, some (h', some s')) =
          some (s'.current_price * (h'.shares : Rat)) from rfl, hxeq]
      have hT'pos : 0 <
          ((joinRows (deleteHoldingState db h0.id)).filterMap rowMV).sum :=
        lt_of_lt_of_le hm0pos (List.single_le_sum hnn'' m0 hm0mem')
      have hTneq : ((joinRows db).filterMap rowMV).sum ≠
          ((joinRows (deleteHoldingState db h0.id)).filterMap rowMV).sum := by
        rw [hTT']
        intro hcon
        have : mV = 0 := by linarith [hcon]
        exact absurd this (ne_of_gt hmVpos)
      intro heq
      have hLHS : allHoldingsList u (deleteHoldingState db h0.id) =
          ((joinRows db).filter (fun p => p.1.user_id == u && p.2.isSome)).map
            (viewRowOf (some (((joinRows (deleteHoldingState db h0.id)).filterMap
              rowMV).sum))) := by
        rw [allHoldingsList_eq, hJU, totalMV_eq_of_ne _ hne']
      have hRHS : allHoldingsList u db =
          ((joinRows db).filter (fun p => p.1.user_id == u && p.2.isSome)).map
            (viewRowOf (some (((joinRows db).filterMap rowMV).sum))) := by
        rw [allHoldingsList_eq, totalMV_eq_of_ne db hne]
      rw [hLHS, hRHS, List.map_map, List.map_map] at heq
      have hpt := List.map_eq_map_iff.mp heq p0 hp0f
      have hpt2 : (viewRowOf (some (((joinRows (deleteHoldingState
          db h0.id)).filterMap rowMV).sum)) p0).percent =
          (viewRowOf (some (((joinRows db).filterMap rowMV).sum)) p0).percent :=
        hpt
      have hpt' : Option.map
          (fun m => m / (((joinRows (deleteHoldingState db h0.id)).filterMap
            rowMV).sum)) (rowMV p0) =
          Option.map (fun m => m / (((joinRows db).filterMap rowMV).sum))
            (rowMV p0) := by
        rw [viewRowOf_percent, viewRowOf_percent, sqlPercent_pos _ hT'pos,
          sqlPercent_pos _ hTpos] at hpt2
        exact hpt2
      rw [hp0mv, Option.map_some', Option.map_some'] at hpt'
      have hdiv := Option.some.inj hpt'
      have hfr : ((joinRows db).filterMap rowMV).sum =
          ((joinRows (deleteHoldingState db h0.id)).filterMap rowMV).sum := by
        have h1 := (div_eq_div_iff (ne_of_gt hT'pos) (ne_of_gt hTpos)).mp hdiv
        exact mul_left_cancel₀ (ne_of_gt hm0pos) h1
      exact hTneq hfr

/-- Database used for the C1 counterexample: users 1 and 2 each hold a positive
position, but user 2 also holds a negative position of -5 shares, driving the window
total negative, so the CASE expression yields percent 0 instead of
`market_value / total`. -/
def dbC1cex : DBState :=
  { users := [⟨1, "u", "h1"⟩, ⟨2, "w", "h2"⟩],
    accounts := [⟨1, "ua", "t", 1⟩, ⟨2, "va", "t", 2⟩],
    assets := [⟨1, "A1", "n1", "c", 1, 1⟩, ⟨2, "A2", "n2", "c", 1, 2⟩,
      ⟨3, "A3", "n3", "c", 1, 2⟩],
    holdings := [⟨1, 1, 1, 1, 1⟩, ⟨2, 2, 2, 1, 2⟩, ⟨3, 3, 2, -5, 2⟩],
    next_user_id := 3, next_account_id := 3, next_asset_id := 4,
    next_holding_id := 4 }

/-- Counterexample to C1 as stated: in `dbC1cex` users 1 and 2 each own a holding of
positive market value, yet the percent of user 1's row is 0, not its market value
divided by the (negative) window total -3. -/
theorem percent_window_cex :
    (∃ r ∈ allHoldingsList 1 dbC1cex, isPosMV r = true) ∧
    (∃ r ∈ allHoldingsList 2 dbC1cex, isPosMV r = true) ∧
    totalMV dbC1cex = some (-3) ∧
    (∃ r ∈ allHoldingsList 1 dbC1cex, r.market_value = some 1 ∧
      r.percent = some 0 ∧
      r.percent ≠ r.market_value.map (fun m => m / (-3))) := by
  have htot : totalMV dbC1cex = some (-3) := by
    have h1 : totalMV dbC1cex = sqlSumOpt [some ((1 : Rat) * ((1 : Int) : Rat)),
        some ((1 : Rat) * ((1 : Int) : Rat)),
        some ((1 : Rat) * (((-5) : Int) : Rat))] := rfl
    rw [h1]
    show some ((1 : Rat) * ((1 : Int) : Rat) + ((1 : Rat) * ((1 : Int) : Rat) +
      ((1 : Rat) * (((-5) : Int) : Rat) + 0))) = some (-3)
    norm_num
  have hr1mem : viewRowOf (totalMV dbC1cex)
      (⟨1, "ua", "t", 1⟩, some (⟨1, 1, 1, 1, 1⟩, some ⟨1, "A1", "n1", "c", 1, 1⟩)) ∈
      allHoldingsList 1 dbC1cex := by
    rw [show allHoldingsList 1 dbC1cex = [viewRowOf (totalMV dbC1cex)
      (⟨1, "ua", "t", 1⟩, some (⟨1, 1, 1, 1, 1⟩,
        some ⟨1, "A1", "n1", "c", 1, 1⟩))] from rfl]
    exact List.mem_singleton.mpr rfl
  have hmv1 : (viewRowOf (totalMV dbC1cex)
      (⟨1, "ua", "t", 1⟩, some (⟨1, 1, 1, 1, 1⟩,
        some ⟨1, "A1", "n1", "c", 1, 1⟩))).market_value = some 1 := by
    show some ((1 : Rat) * ((1 : Int) : Rat)) = some 1
    norm_num
  have hpct1 : (viewRowOf (totalMV dbC1cex)
      (⟨1, "ua", "t", 1⟩, some (⟨1, 1, 1, 1, 1⟩,
        some ⟨1, "A1", "n1", "c", 1, 1⟩))).percent = some 0 := by
    rw [viewRowOf_percent, htot, sqlPercent_nonpos (-3) (by norm_num)]
  refine ⟨⟨_, hr1mem, ?_⟩, ⟨viewRowOf (totalMV dbC1cex) (⟨2, "va", "t", 2⟩,
      some (⟨2, 2, 2, 1, 2⟩, some ⟨2, "A2", "n2", "c", 1, 2⟩)), ?_, ?_⟩, htot,
    ⟨_, hr1mem, hmv1, hpct1, ?_⟩⟩
  · show decide ((0 : Rat) < (1 : Rat) * ((1 : Int) : Rat)) = true
    norm_num
  · rw [show allHoldingsList 2 dbC1cex = [viewRowOf (totalMV dbC1cex)
      (⟨2, "va", "t", 2⟩, some (⟨2, 2, 2, 1, 2⟩, some ⟨2, "A2", "n2", "c", 1, 2⟩)),
      viewRowOf (totalMV dbC1cex) (⟨2, "va", "t", 2⟩, some (⟨3, 3, 2, -5, 2⟩,
        some ⟨3, "A3", "n3", "c", 1, 2⟩))] from rfl]
    exact List.mem_cons_self _ _
  · show decide ((0 : Rat) < (1 : Rat) * ((1 : Int) : Rat)) = true
    norm_num
  · rw [hmv1, hpct1]
    intro hcon
    have h2 := Option.some.inj hcon
    norm_num at h2

/-- Database used for the C1 witness: users 1 and 2 each with one account, one
asset (prices 2 and 3) and one single-share holding. -/
def dbC1w : DBState :=
  { users := [⟨1, "u", "h1"⟩, ⟨2, "w", "h2"⟩],
    accounts := [⟨1, "ua", "t", 1⟩, ⟨2, "va", "t", 2⟩],
    assets := [⟨1, "A1", "n1", "c", 2, 1⟩, ⟨2, "A2", "n2", "c", 3, 2⟩],
    holdings := [⟨1, 1, 1, 1, 1⟩, ⟨2, 2, 2, 1, 2⟩],
    next_user_id := 3, next_account_id := 3, next_asset_id := 3,
    next_holding_id := 3 }

/-- Witness for the amended C1 theorem on the two-user state `dbC1w`. -/
theorem percent_window_cross_tenant_witness :
    (dbC1w.accounts.map (fun a => a.id)).Nodup ∧
    (dbC1w.holdings.map (fun x => x.id)).Nodup ∧
    (dbC1w.assets.map (fun x => x.id)).Nodup ∧
    (1 : Nat) ≠ 2 ∧
    (∀ p ∈ joinRows dbC1w, ∀ m : Rat, rowMV p = some m → 0 ≤ m) ∧
    (∃ r ∈ allHoldingsList 1 dbC1w, isPosMV r = true) ∧
    (∃ r ∈ allHoldingsList 2 dbC1w, isPosMV r = true) ∧
    (∃ T : Rat, totalMV dbC1w = some T ∧ 0 < T ∧
      (∀ r ∈ allHoldingsList 1 dbC1w,
        r.percent = r.market_value.map (fun m => m / T)) ∧
      (∀ (aid : Nat), ∀ r ∈ accountHoldingsList 1 aid dbC1w,
        r.percent = r.market_value.map (fun m => m / T)) ∧
      ((allHoldingsList 1 dbC1w).filterMap (fun r => r.percent)).sum < 1 ∧
      (∃ hid : Nat, ∃ db' : DBState,
        delete_holding (some 1) dbC1w hid = Except.ok db' ∧
        db'.accounts = dbC1w.accounts ∧ db'.assets = dbC1w.assets ∧
        (∀ x ∈ dbC1w.holdings, x ∉ db'.holdings →
          ∃ a ∈ dbC1w.accounts, a.user_id = 2 ∧ x.account_id = a.id) ∧
        (allHoldingsList 1 db').map (fun r => r.percent) ≠
          (allHoldingsList 1 dbC1w).map (fun r => r.percent)) ∧
      all_holdings (some 1) dbC1w = Except.ok (allHoldingsList 1 dbC1w) ∧
      (∀ aid : Nat, account_holdings (some 1) dbC1w aid =
        Except.ok (accountHoldingsList 1 aid dbC1w))) := by
  have hnnw : ∀ p ∈ joinRows dbC1w, ∀ m : Rat, rowMV p = some m → 0 ≤ m := by
    intro p hp m hm
    rw [show joinRows dbC1w = [(⟨1, "ua", "t", 1⟩, some (⟨1, 1, 1, 1, 1⟩,
        some ⟨1, "A1", "n1", "c", 2, 1⟩)), (⟨2, "va", "t", 2⟩,
        some (⟨2, 2, 2, 1, 2⟩, some ⟨2, "A2", "n2", "c", 3, 2⟩))] from rfl] at hp
    rcases List.mem_cons.mp hp with rfl | hp2
    · rw [show rowMV (⟨1, "ua", "t", 1⟩, some (⟨1, 1, 1, 1, 1⟩,
        some ⟨1, "A1", "n1", "c", 2, 1⟩)) =
          some ((2 : Rat) * ((1 : Int) : Rat)) from rfl] at hm
      rw [← Option.some.inj hm]
      norm_num
    · rcases List.mem_cons.mp hp2 with rfl | hp3
      · rw [show rowMV (⟨2, "va", "t", 2⟩, some (⟨2, 2, 2, 1, 2⟩,
          some ⟨2, "A2", "n2", "c", 3, 2⟩)) =
            some ((3 : Rat) * ((1 : Int) : Rat)) from rfl] at hm
        rw [← Option.some.inj hm]
        norm_num
      · cases hp3
  have hUw : ∃ r ∈ allHoldingsList 1 dbC1w, isPosMV r = true := by
    refine ⟨viewRowOf (totalMV dbC1w) (⟨1, "ua", "t", 1⟩, some (⟨1, 1, 1, 1, 1⟩,
      some ⟨1, "A1", "n1", "c", 2, 1⟩)), ?_, ?_⟩
    · rw [show allHoldingsList 1 dbC1w = [viewRowOf (totalMV dbC1w)
        (⟨1, "ua", "t", 1⟩, some (⟨1, 1, 1, 1, 1⟩,
          some ⟨1, "A1", "n1", "c", 2, 1⟩))] from rfl]
      exact List.mem_singleton.mpr rfl
    · show decide ((0 : Rat) < (2 : Rat) * ((1 : Int) : Rat)) = true
      norm_num
  have hVw : ∃ r ∈ allHoldingsList 2 dbC1w, isPosMV r = true := by
    refine ⟨viewRowOf (totalMV dbC1w) (⟨2, "va", "t", 2⟩, some (⟨2, 2, 2, 1, 2⟩,
      some ⟨2, "A2", "n2", "c", 3, 2⟩)), ?_, ?_⟩
    · rw [show allHoldingsList 2 dbC1w = [viewRowOf (totalMV dbC1w)
        (⟨2, "va", "t", 2⟩, some (⟨2, 2, 2, 1, 2⟩,
          some ⟨2, "A2", "n2", "c", 3, 2⟩))] from rfl]
      exact List.mem_singleton.mpr rfl
    · show decide ((0 : Rat) < (3 : Rat) * ((1 : Int) : Rat)) = true
      norm_num
  exact ⟨by decide, by decide, by decide, by decide, hnnw, hUw, hVw,
    percent_window_cross_tenant 1 2 dbC1w (by decide) (by decide) (by decide)
      (by decide) hnnw hUw hVw⟩

end Portfolio
